import Mathlib

/-!
Verification development for the vehicle-tracking simulation core
(`tracking/services.py`, `tracking/pathfinder.py`).

Python floats are modelled as elements of a linear ordered field (exact
arithmetic); Python ints as `Int`/`Nat`; functions that can raise return
`Except String`.  Numeric code that is polymorphic in Python (duck typing)
is embedded polymorphically over `[LinearOrderedField A]`; trigonometric
code is embedded over `Real`.
-/

open scoped Matrix

/-! ## Polyline codec (`decode_polyline6`, `_decode_value`) -/

/-- Zig-zag decoding of the accumulated group value, from `_decode_value`:
`delta = ~(result >> 1) if (result & 1) else (result >> 1)`; Python's
`~x` is `-(x + 1)`. -/
def zigzagDecode (result : ℕ) : ℤ :=
  if result &&& 1 = 1 then -(((result >>> 1 : ℕ) : ℤ) + 1) else ((result >>> 1 : ℕ) : ℤ)

/-- The accumulation loop of `_decode_value`.  Each character contributes its
low five bits (`b & 0x1F`, which for Python's arbitrary-precision ints equals
`b mod 32`, a value in `[0, 31]`) shifted by the running `shift`; the loop
stops at the first character whose value `b = ord(c) - 63` is below `0x20`
(no continuation bit), and raises `ValueError` when the buffer is exhausted
first.  The returned suffix carries a proof that at least one character was
consumed (used only for termination of the caller). -/
def decodeValueStep : (cs : List Char) → ℕ → ℕ →
    Except String (ℤ × {rest : List Char // rest.length < cs.length})
  | [], _, _ => .error "Invalid polyline: buffer exhausted."
  | c :: rest, result, shift =>
    let b : ℤ := (c.toNat : ℤ) - 63
    let result' : ℕ := result ||| (((b % 32).toNat) <<< shift)
    if b < 32 then
      .ok (zigzagDecode result', ⟨rest, by simp⟩)
    else
      match decodeValueStep rest result' (shift + 5) with
      | .error e => .error e
      | .ok (d, ⟨r, hr⟩) => .ok (d, ⟨r, hr.trans (by simp)⟩)

/-- The `while index < len(polyline)` loop of `decode_polyline6`: two deltas
(latitude then longitude) are consumed per emitted point, both accumulated
onto the running totals, and the totals are scaled by `factor = 1e-6` when
the coordinate is appended. -/
def decodePolyline6Aux {A : Type} [LinearOrderedField A] :
    (cs : List Char) → ℤ → ℤ → Except String (List (A × A))
  | [], _, _ => .ok []
  | c :: cs', lat, lng =>
    match decodeValueStep (c :: cs') 0 0 with
    | .error e => .error e
    | .ok (latChange, ⟨cs1, h1⟩) =>
      match decodeValueStep cs1 0 0 with
      | .error e => .error e
      | .ok (lngChange, ⟨cs2, h2⟩) =>
        match decodePolyline6Aux cs2 (lat + latChange) (lng + lngChange) with
        | .error e => .error e
        | .ok rest =>
          .ok ((((lat + latChange : ℤ) : A) * (1 / 1000000),
                ((lng + lngChange : ℤ) : A) * (1 / 1000000)) :: rest)
  termination_by cs => cs.length
  decreasing_by exact h2.trans h1

/-- `decode_polyline6(polyline)`: decode a polyline6 string into a list of
`(lat, lng)` coordinates, starting from running totals `lat = lng = 0`. -/
def decodePolyline6 {A : Type} [LinearOrderedField A] (cs : List Char) :
    Except String (List (A × A)) :=
  decodePolyline6Aux cs 0 0

/-! ## Geodesy (`haversine_km`, `_bearing_deg`) -/

/-- Fixed Earth radius from `services.py`: `EARTH_RADIUS_KM = 6371.0088`. -/
noncomputable def EARTH_RADIUS_KM : ℝ := 6371.0088

/-- Model of C `atan2(y, x)` (Python `math.atan2`), case-split on the
quadrant; `atan2(0, 0) = 0` as in CPython. -/
noncomputable def atan2r (y x : ℝ) : ℝ :=
  if 0 < x then Real.arctan (y / x)
  else if x < 0 ∧ 0 ≤ y then Real.arctan (y / x) + Real.pi
  else if x < 0 then Real.arctan (y / x) - Real.pi
  else if 0 < y then Real.pi / 2
  else if y < 0 then -(Real.pi / 2)
  else 0

/-- Python `math.radians`. -/
noncomputable def radiansOf (x : ℝ) : ℝ := x * Real.pi / 180

/-- Python `math.degrees`. -/
noncomputable def degreesOf (x : ℝ) : ℝ := x * 180 / Real.pi

/-- Python float `%` (floored modulo): `x % m = x - m * floor(x / m)`. -/
noncomputable def pymod (x m : ℝ) : ℝ := x - m * (⌊x / m⌋ : ℤ)

/-- `haversine_km(start, end)`: great-circle distance between two
coordinates in kilometres.  `Real.sqrt` of a negative argument is `0` in
Mathlib where `math.sqrt` would raise; for the haversine formula the
argument `a` lies in `[0, 1]` for real inputs, and only nonnegativity of
the result is used here. -/
noncomputable def haversineKm (p q : ℝ × ℝ) : ℝ :=
  let lat1 := radiansOf p.1
  let lng1 := radiansOf p.2
  let lat2 := radiansOf q.1
  let lng2 := radiansOf q.2
  let dLat := lat2 - lat1
  let dLng := lng2 - lng1
  let a := Real.sin (dLat / 2) ^ 2 +
    Real.cos lat1 * Real.cos lat2 * Real.sin (dLng / 2) ^ 2
  let c := 2 * atan2r (Real.sqrt a) (Real.sqrt (1 - a))
  EARTH_RADIUS_KM * c

/-- `_bearing_deg(lat1, lng1, lat2, lng2)`: forward azimuth in degrees,
normalised into `[0, 360)` by `(bearing + 360) % 360`. -/
noncomputable def bearingDeg (lat1 lng1 lat2 lng2 : ℝ) : ℝ :=
  let phi1 := radiansOf lat1
  let phi2 := radiansOf lat2
  let dLambda := radiansOf (lng2 - lng1)
  let x := Real.sin dLambda * Real.cos phi2
  let y := Real.cos phi1 * Real.sin phi2 -
    Real.sin phi1 * Real.cos phi2 * Real.cos dLambda
  let bearing := degreesOf (atan2r x y)
  pymod (bearing + 360) 360

/-! ## Kalman filter (`KalmanFilter2D`)

The Python code stores the state as a 4-list and the covariance as a
4x4 list-of-lists, with `_matmul`, `_transpose` and `_identity` as helper
routines; these are embedded as Mathlib `Matrix` values, where `*` is
`_matmul`, `ᵀ` is `_transpose` and `1` is `_identity(4)`. -/

/-- The state of one `KalmanFilter2D` instance: the constructor parameters
`process_variance` and `measurement_variance`, the optional state vector
`[lat, lng, v_lat, v_lng]`, the optional covariance, and the timestamp of
the last update. -/
structure KalmanFilter2D (A : Type) where
  processVariance : A
  measurementVariance : A
  state : Option (Fin 4 → A)
  covariance : Option (Matrix (Fin 4) (Fin 4) A)
  lastTimestamp : Option A

/-- `KalmanFilter2D()` with the default constructor arguments
`process_variance = 5e-7` and `measurement_variance = 2e-6`. -/
def freshKF (A : Type) [LinearOrderedField A] : KalmanFilter2D A :=
  { processVariance := 5 / 10000000
    measurementVariance := 2 / 1000000
    state := none
    covariance := none
    lastTimestamp := none }

/-- The initial covariance installed on the first observation:
diagonal with `1e-3` position variance and `1e-2` velocity variance. -/
def kfInitCov (A : Type) [LinearOrderedField A] : Matrix (Fin 4) (Fin 4) A :=
  !![1/1000, 0, 0, 0;
     0, 1/1000, 0, 0;
     0, 0, 1/100, 0;
     0, 0, 0, 1/100]

/-- The constant-velocity transition matrix `A` of `_predict`. -/
def kfA {A : Type} [LinearOrderedField A] (dt : A) : Matrix (Fin 4) (Fin 4) A :=
  !![1, 0, dt, 0;
     0, 1, 0, dt;
     0, 0, 1, 0;
     0, 0, 0, 1]

/-- The discretised white-noise-acceleration process-noise matrix `Q` of
`_predict`, built from `dt` powers scaled by the process variance `q`. -/
def kfQ {A : Type} [LinearOrderedField A] (q dt : A) : Matrix (Fin 4) (Fin 4) A :=
  let dt2 := dt * dt
  let dt3 := dt2 * dt
  let dt4 := dt3 * dt
  !![(1/4) * dt4 * q, 0, (1/2) * dt3 * q, 0;
     0, (1/4) * dt4 * q, 0, (1/2) * dt3 * q;
     (1/2) * dt3 * q, 0, dt2 * q, 0;
     0, (1/2) * dt3 * q, 0, dt2 * q]

/-- The observation matrix `H` of `_update` (selects `lat`, `lng`). -/
def kfH {A : Type} [LinearOrderedField A] : Matrix (Fin 2) (Fin 4) A :=
  !![1, 0, 0, 0;
     0, 1, 0, 0]

/-- `_invert_2x2(matrix)`: closed-form 2x2 inverse, regularised by clamping
a determinant whose absolute value is below `1e-12`. -/
def invert2x2 {A : Type} [LinearOrderedField A] (M : Matrix (Fin 2) (Fin 2) A) :
    Matrix (Fin 2) (Fin 2) A :=
  let a := M 0 0
  let b := M 0 1
  let c := M 1 0
  let d := M 1 1
  let det0 := a * d - b * c
  let det := if |det0| < 1 / 1000000000000 then 1 / 1000000000000 else det0
  let invDet := 1 / det
  !![d * invDet, -b * invDet;
     -c * invDet, a * invDet]

/-- `KalmanFilter2D._predict(dt)` (the guard for a missing state is kept:
it returns the filter unchanged, as the early `return` does). -/
def kfPredict {A : Type} [LinearOrderedField A] (kf : KalmanFilter2D A) (dt : A) :
    KalmanFilter2D A :=
  match kf.state, kf.covariance with
  | some s, some P =>
    let state' : Fin 4 → A := ![s 0 + dt * s 2, s 1 + dt * s 3, s 2, s 3]
    let cov' := kfA dt * P * (kfA dt)ᵀ + kfQ kf.processVariance dt
    { kf with state := some state', covariance := some cov' }
  | _, _ => kf

/-- `KalmanFilter2D._update(lat, lng)` (again keeping the dead guard, which
returns the raw observation when state or covariance is missing). -/
def kfUpdate {A : Type} [LinearOrderedField A] (kf : KalmanFilter2D A)
    (lat lng : A) : KalmanFilter2D A × (A × A) :=
  match kf.state, kf.covariance with
  | some s, some P =>
    let S := kfH * P * (kfH (A := A))ᵀ + !![kf.measurementVariance, 0; 0, kf.measurementVariance]
    let Sinv := invert2x2 S
    let K := P * (kfH (A := A))ᵀ * Sinv
    let res0 := lat - s 0
    let res1 := lng - s 1
    let state' : Fin 4 → A := fun i => s i + K i 0 * res0 + K i 1 * res1
    let cov' := (1 - K * kfH) * P
    ({ kf with state := some state', covariance := some cov' }, (state' 0, state' 1))
  | _, _ => (kf, (lat, lng))

/-- `KalmanFilter2D.step(timestamp, lat, lng)`.  On the first observation the
state is initialised to `[lat, lng, 0, 0]`, the covariance to `kfInitCov`,
the timestamp is recorded and the raw observation is returned unchanged.
Otherwise `dt = max(timestamp - (last_timestamp or timestamp), 1.0)`
(Python's `or` substitutes `timestamp` when `last_timestamp` is `None` or
the falsy `0.0`), then predict and update run. -/
def kfStep {A : Type} [LinearOrderedField A] (kf : KalmanFilter2D A)
    (timestamp lat lng : A) : KalmanFilter2D A × (A × A) :=
  match kf.state, kf.covariance with
  | some _, some _ =>
    let lastv : A := match kf.lastTimestamp with
      | none => timestamp
      | some l => if l = 0 then timestamp else l
    let dt := max (timestamp - lastv) 1
    let kf' := { kf with lastTimestamp := some timestamp }
    kfUpdate (kfPredict kf' dt) lat lng
  | _, _ =>
    ({ kf with
        state := some ![lat, lng, 0, 0]
        covariance := some (kfInitCov A)
        lastTimestamp := some timestamp }, (lat, lng))

/-- A sequence of `step` calls on one filter instance, threading the
mutable state. -/
def kfStepMany {A : Type} [LinearOrderedField A] (kf : KalmanFilter2D A)
    (inputs : List (A × A × A)) : KalmanFilter2D A :=
  inputs.foldl (fun k i => (kfStep k i.1 i.2.1 i.2.2).1) kf

/-! ## Graph and shortest path (`pathfinder.Graph`, `pathfinder.dijkstra`)

`pathfinder.py` defines `Graph` and `dijkstra` twice, identically; the
second (shadowing) definitions are embedded.  The node container is a
Python `set`, modelled as a duplicate-free list in insertion order (set
iteration order is implementation-defined in Python; the modelled order is
one admissible choice).  The `edges` and `distances` dicts are modelled as
total functions: `edges` defaults to `[]` and `distances` to `none` for
keys never assigned (Python would raise `KeyError`; `dijkstra` and
`build_graph_from_routes` only read keys previously assigned). -/

structure Graph (V W : Type) where
  nodes : List V
  edges : V → List V
  distances : V × V → Option W

/-- `Graph()` constructor: empty node set, empty dicts. -/
def Graph.empty (V W : Type) : Graph V W :=
  { nodes := [], edges := fun _ => [], distances := fun _ => none }

/-- `Graph.add_node(value)`: insert into the node set and assign
`edges[value] = []` (re-adding a node resets its adjacency list, as the
dict assignment does). -/
def Graph.addNode {V W : Type} [DecidableEq V] (g : Graph V W) (value : V) :
    Graph V W :=
  { g with
      nodes := if value ∈ g.nodes then g.nodes else g.nodes ++ [value]
      edges := Function.update g.edges value [] }

/-- `Graph.add_edge(from_node, to_node, distance)`: append to the adjacency
list and record the directed edge weight. -/
def Graph.addEdge {V W : Type} [DecidableEq V] (g : Graph V W)
    (fromNode toNode : V) (distance : W) : Graph V W :=
  { g with
      edges := Function.update g.edges fromNode (g.edges fromNode ++ [toNode])
      distances := Function.update g.distances (fromNode, toNode) (some distance) }

/-- The minimum-selection scan of `dijkstra`: the first visited node in
iteration order wins; a later node replaces it only when strictly
cheaper. -/
def dijkstraFindMin {V W : Type} [LinearOrder W] (nodes : List V)
    (visited : V → Option W) : Option (V × W) :=
  nodes.foldl
    (fun best n =>
      match visited n with
      | none => best
      | some w =>
        match best with
        | none => some (n, w)
        | some (_, bw) => if w < bw then some (n, w) else best)
    none

/-- The edge-relaxation loop of `dijkstra`: for each neighbour, compute
`current_weight + distances[(min_node, edge)]` and update the distance and
predecessor maps when the node is unvisited or the new weight is strictly
smaller. -/
def dijkstraRelax {V W : Type} [DecidableEq V] [LinearOrder W] [Add W] [Inhabited W]
    (g : Graph V W) (minNode : V) (currentWeight : W)
    (visited : V → Option W) (path : V → Option V) :
    (V → Option W) × (V → Option V) :=
  (g.edges minNode).foldl
    (fun vp e =>
      let weight := currentWeight + (g.distances (minNode, e)).getD default
      match vp.1 e with
      | none =>
        (Function.update vp.1 e (some weight), Function.update vp.2 e (some minNode))
      | some cur =>
        if weight < cur then
          (Function.update vp.1 e (some weight), Function.update vp.2 e (some minNode))
        else vp)
    (visited, path)

/-- The `while nodes:` loop of `dijkstra`.  Each iteration either removes
one node from the remaining set or breaks, so the iteration count is
bounded by the initial node count; `fuel` is that bound, making the
recursion structural.  When `fuel` reaches `0` the remaining set is empty
and the loop would exit anyway. -/
def dijkstraLoop {V W : Type} [DecidableEq V] [LinearOrder W] [Add W] [Inhabited W]
    (g : Graph V W) :
    ℕ → List V → (V → Option W) → (V → Option V) → (V → Option W) × (V → Option V)
  | 0, _, visited, path => (visited, path)
  | fuel + 1, nodes, visited, path =>
    match dijkstraFindMin nodes visited with
    | none => (visited, path)
    | some (minNode, currentWeight) =>
      let nodes' := nodes.erase minNode
      let vp := dijkstraRelax g minNode currentWeight visited path
      dijkstraLoop g fuel nodes' vp.1 vp.2

/-- `dijkstra(graph, initial)`: single-source search producing the distance
map `visited` (initially `{initial: 0}`) and the predecessor map `path`. -/
def dijkstra {V W : Type} [DecidableEq V] [LinearOrder W] [Add W] [Inhabited W]
    [Zero W] (g : Graph V W) (initial : V) :
    (V → Option W) × (V → Option V) :=
  dijkstraLoop g g.nodes.length g.nodes
    (Function.update (fun _ => none) initial (some 0)) (fun _ => none)

/-! ## Route graph construction (`pathfinder.build_graph_from_routes`)

The function drives the external `shapely` geometry library (`LineString`,
`Point`, `.intersection`, `.distance`, `.contains`).  Those third-party
geometric primitives are modelled as an oracle record over the decoded
coordinate lists; the repository's own control flow around them is
embedded faithfully. -/

/-- Oracle for the shapely operations used by `build_graph_from_routes`.
`intersectionPts a b` lists the coordinates the code extracts from
`LineString(a).intersection(LineString(b))` according to its `geom_type`
(`[]` when the intersection is empty or of an unhandled type);
`isNearPt a p` models `LineString(a).distance(Point(p)) < 1e-8`;
`containsSeg a p q` models `LineString(a).contains(LineString([p, q]))`. -/
structure ShapelyModel where
  intersectionPts : List (ℝ × ℝ) → List (ℝ × ℝ) → List (ℝ × ℝ)
  isNearPt : List (ℝ × ℝ) → (ℝ × ℝ) → Bool
  containsSeg : List (ℝ × ℝ) → (ℝ × ℝ) → (ℝ × ℝ) → Bool

/-- The `(i, j)` index pairs visited by
`for i in range(n): for j in range(i + 1, n)`, in loop order. -/
def pairsLT (n : ℕ) : List (ℕ × ℕ) :=
  (List.range n).flatMap fun i => (List.range' (i + 1) (n - (i + 1))).map fun j => (i, j)

/-- Decode every route definition's polyline, propagating the first decode
failure, and reject a one-point result as `shapely.LineString` does. -/
noncomputable def decodedPolylines :
    List (List Char) → Except String (List (List (ℝ × ℝ)))
  | [] => .ok []
  | p :: rest =>
    match decodePolyline6 (A := ℝ) p with
    | .error e => .error e
    | .ok coords =>
      if coords.length = 1 then .error "LineString requires at least 2 coordinates."
      else
        match decodedPolylines rest with
        | .error e => .error e
        | .ok others => .ok (coords :: others)

/-- The node-collection phase of `build_graph_from_routes`: for each pair
`i < j` of polylines, add every coordinate extracted from their
intersection as a node. -/
noncomputable def graphAddIntersections (sh : ShapelyModel)
    (polylines : List (List (ℝ × ℝ))) (g : Graph (ℝ × ℝ) ℝ) : Graph (ℝ × ℝ) ℝ :=
  (pairsLT polylines.length).foldl
    (fun acc ij =>
      (sh.intersectionPts (polylines.getD ij.1 []) (polylines.getD ij.2 [])).foldl
        Graph.addNode acc)
    g

/-- The edge-collection phase: for each polyline and each ordered pair of
distinct graph nodes lying within `1e-8` of it, when the polyline contains
the connecting segment, add a directed edge weighted by `haversine_km`. -/
noncomputable def graphAddEdges (sh : ShapelyModel)
    (polylines : List (List (ℝ × ℝ))) (g : Graph (ℝ × ℝ) ℝ) : Graph (ℝ × ℝ) ℝ :=
  (List.range polylines.length).foldl
    (fun acc1 i =>
      let pl := polylines.getD i []
      g.nodes.foldl
        (fun acc2 node =>
          if sh.isNearPt pl node then
            g.nodes.foldl
              (fun acc3 otherNode =>
                if sh.isNearPt pl otherNode ∧ node ≠ otherNode then
                  if sh.containsSeg pl node otherNode then
                    acc3.addEdge node otherNode (haversineKm node otherNode)
                  else acc3
                else acc3)
              acc2
          else acc2)
        acc1)
    g

/-- `build_graph_from_routes(route_definitions)` (the definitions are passed
as their polyline strings; the other dict fields are unused). -/
noncomputable def buildGraphFromRoutes (sh : ShapelyModel)
    (routeDefinitions : List (List Char)) : Except String (Graph (ℝ × ℝ) ℝ) :=
  match decodedPolylines routeDefinitions with
  | .error e => .error e
  | .ok polylines =>
    let g1 := graphAddIntersections sh polylines (Graph.empty _ _)
    .ok (graphAddEdges sh polylines g1)

/-! ## Segment interpolation (`_interpolate_position`, `bisect.bisect_left`)

List indexing models Python subscripts via `getD` with a default; the
Python code would raise `IndexError` out of bounds, which the constructed
routes never trigger (every route has at least one point and a cumulative
table of equal length). -/

/-- The `while lo < hi` loop of CPython's `bisect_left`.  The interval
`hi - lo` shrinks by at least one every iteration, so the iteration count
is bounded by the initial interval length, carried as structural `fuel`
(when `fuel` reaches `0` the interval is already empty and the loop would
exit). -/
def bisectLoop {A : Type} [LinearOrderedField A] (a : List A) (x : A) :
    ℕ → ℕ → ℕ → ℕ
  | 0, lo, _ => lo
  | fuel + 1, lo, hi =>
    if lo < hi then
      let mid := (lo + hi) / 2
      if a.getD mid 0 < x then bisectLoop a x fuel (mid + 1) hi
      else bisectLoop a x fuel lo mid
    else lo

/-- `bisect.bisect_left(a, x)` (with explicit `lo`, `hi` bounds): binary
search returning the insertion point. -/
def bisectLeft {A : Type} [LinearOrderedField A] (a : List A) (x : A)
    (lo hi : ℕ) : ℕ :=
  bisectLoop a x (hi - lo) lo hi

/-- `_interpolate_position(route, distance_km)` on the route's point list
and cumulative-distance table, returning `(lat, lng, segment_index)`. -/
def interpolatePosition {A : Type} [LinearOrderedField A]
    (points : List (A × A)) (cumulative : List A) (distanceKm : A) :
    (A × A) × ℕ :=
  if distanceKm ≤ 0 ∨ points.length = 1 then
    (points.getD 0 (0, 0), 0)
  else if cumulative.getLastD 0 ≤ distanceKm then
    (points.getD (points.length - 1) (0, 0), points.length - 1)
  else
    let idx := bisectLeft cumulative distanceKm 0 cumulative.length
    if cumulative.getD idx 0 = distanceKm then
      (points.getD idx (0, 0), idx - 1)
    else
      let prevIdx := idx - 1
      let s := points.getD prevIdx (0, 0)
      let e := points.getD idx (0, 0)
      let segmentDistance := cumulative.getD idx 0 - cumulative.getD prevIdx 0
      if segmentDistance ≤ 0 then (s, prevIdx)
      else
        let frac := (distanceKm - cumulative.getD prevIdx 0) / segmentDistance
        ((s.1 + (e.1 - s.1) * frac, s.2 + (e.2 - s.2) * frac), prevIdx)

/-! ## Route model builder (`_build_routes`)

The builder consumes the static `ROUTE_DEFINITIONS` table.  The table is
pure data (three long polyline literals plus metadata); the builder is
embedded as a function of an arbitrary definition list, which covers the
static table as one instance. -/

/-- One entry of `ROUTE_DEFINITIONS`: `dict.get` with a default is modelled
by `Option` fields. -/
structure RouteDefinition where
  defnId : String
  defnName : String
  color : Option String
  polyline : List Char
  averageSpeedKmh : Option ℝ
  originLabel : Option String
  destinationLabel : Option String

/-- An enriched route object as built by `_build_routes` (the dict fields
`id`, `name`, `color` and the origin/destination labels are carried
unchanged; `point_dicts`, `origin` and `destination` hold rounded copies of
coordinates). -/
structure Route where
  routeId : String
  routeName : String
  routeColor : String
  points : List (ℝ × ℝ)
  pointDicts : List (ℝ × ℝ)
  cumulativeKm : List ℝ
  lengthKm : ℝ
  averageSpeedKmh : ℝ
  loopSeconds : ℤ
  originLabel : String
  origin : ℝ × ℝ
  destinationLabel : String
  destination : ℝ × ℝ

/-- Python `round(x, n)` modelled as rounding `x * 10^n` to the nearest
integer (Python rounds float ties to even; `round` here rounds ties up —
the difference only shows at exact half-way values, which none of the
verified properties touch). -/
noncomputable def roundTo (n : ℕ) (x : ℝ) : ℝ := ((round (x * 10 ^ n) : ℤ) : ℝ) / 10 ^ n

/-- Python `int(x)` on a float: truncation toward zero. -/
noncomputable def pyTrunc (x : ℝ) : ℤ := if 0 ≤ x then ⌊x⌋ else ⌈x⌉

/-- The cumulative-distance accumulation loop:
`for start, end in zip(coords[:-1], coords[1:]):
   cumulative.append(cumulative[-1] + haversine_km(start, end))`. -/
noncomputable def cumulativeTail (c : ℝ) : List ((ℝ × ℝ) × (ℝ × ℝ)) → List ℝ
  | [] => []
  | p :: rest =>
    let c' := c + haversineKm p.1 p.2
    c' :: cumulativeTail c' rest

/-- The route object built from one definition whose polyline decoded to
the non-empty list `coords`. -/
noncomputable def mkRoute (d : RouteDefinition) (coords : List (ℝ × ℝ)) : Route :=
  let pointDicts := coords.map fun p => (roundTo 6 p.1, roundTo 6 p.2)
  let cumulative : List ℝ := 0 :: cumulativeTail 0 (coords.zip coords.tail)
  let lengthKm := cumulative.getLastD 0
  let avgSpeed := max (d.averageSpeedKmh.getD 35) 5
  let loopSeconds := pyTrunc (max (lengthKm / avgSpeed * 3600) 900)
  let originPt := coords.getD 0 (0, 0)
  let destPt := coords.getD (coords.length - 1) (0, 0)
  { routeId := d.defnId
    routeName := d.defnName
    routeColor := d.color.getD "#2563eb"
    points := coords
    pointDicts := pointDicts
    cumulativeKm := cumulative
    lengthKm := lengthKm
    averageSpeedKmh := avgSpeed
    loopSeconds := loopSeconds
    originLabel := d.originLabel.getD "Origin"
    origin := (roundTo 6 originPt.1, roundTo 6 originPt.2)
    destinationLabel := d.destinationLabel.getD "Destination"
    destination := (roundTo 6 destPt.1, roundTo 6 destPt.2) }

/-- `_build_routes()`: decode each definition (a decode failure propagates
as the `ValueError` would), silently drop definitions that decode to zero
points, and enrich the rest in order. -/
noncomputable def buildRoutes : List RouteDefinition → Except String (List Route)
  | [] => .ok []
  | d :: rest =>
    match decodePolyline6 (A := ℝ) d.polyline with
    | .error e => .error e
    | .ok coords =>
      if coords = [] then buildRoutes rest
      else
        match buildRoutes rest with
        | .error e => .error e
        | .ok rs => .ok (mkRoute d coords :: rs)

/-- The route collection actually produced for a definition list (`[]` when
the builder raises), used to state construction invariants. -/
noncomputable def builtRoutes (defs : List RouteDefinition) : List Route :=
  match buildRoutes defs with
  | .ok rs => rs
  | .error _ => []

/-! ## Position simulator (`generate_vehicle_data` and helpers)

`generate_vehicle_data` reads `datetime.now(timezone.utc)` once per call;
that wall-clock reading (`now.timestamp()`, a POSIX epoch float) is the
ambient time source and is passed here as the explicit parameter `now`.
The module-level `ROUTES` constant (the output of `_build_routes()` on the
static definitions) is likewise passed as the `routes` parameter, and the
process-wide `FILTER_STATE` dict as an explicit store threaded through the
call.  The ISO-8601 string `now.isoformat()` is a formatting of `now` and
is not modelled; the numeric `last_update_epoch` field is. -/

/-- One entry of the static `VEHICLE_PROFILES` table. -/
structure VehicleProfile where
  callsign : String
  licensePlate : String
  deviceId : String
  driver : String
  vehicleType : String

/-- The static `VEHICLE_PROFILES` table of `services.py` (10 entries). -/
def VEHICLE_PROFILES : List VehicleProfile :=
  [ ⟨"VT-201", "DHA-2013", "VTMS-DHK-201", "Rahim Khan", "Refrigerated Truck"⟩,
    ⟨"VT-202", "DHA-5194", "VTMS-DHK-202", "Shila Akter", "Box Van"⟩,
    ⟨"VT-203", "DHA-8821", "VTMS-DHK-203", "Nazmul Islam", "Flatbed"⟩,
    ⟨"VT-204", "DHA-3307", "VTMS-DHK-204", "Farzana Chowdhury", "Tanker"⟩,
    ⟨"VT-205", "DHA-7742", "VTMS-DHK-205", "Masud Karim", "Mini Truck"⟩,
    ⟨"VT-206", "DHA-4410", "VTMS-DHK-206", "Sadia Rahman", "Delivery Van"⟩,
    ⟨"VT-207", "DHA-9145", "VTMS-DHK-207", "Tariq Ahmed", "Covered Van"⟩,
    ⟨"VT-208", "DHA-6259", "VTMS-DHK-208", "Mitu Sultana", "SUV"⟩,
    ⟨"VT-209", "DHA-7034", "VTMS-DHK-209", "Abid Hossain", "Motorbike"⟩,
    ⟨"VT-210", "DHA-5528", "VTMS-DHK-210", "Shamima Rupa", "Pickup"⟩ ]

/-- `_determine_status(progress, speed, base_speed)`. -/
noncomputable def determineStatus (progress speed baseSpeed : ℝ) : String :=
  if progress < 5 / 100 then "Departing Terminal"
  else if 95 / 100 < progress then "Approaching Destination"
  else if speed < baseSpeed * (6 / 10) then "Congested"
  else "En Route"

/-- `_route_heading(route, segment_index, lat, lng)`. -/
noncomputable def routeHeading (route : Route) (segmentIndex : ℕ) (lat lng : ℝ) : ℝ :=
  let points := route.points
  let nextIndex := min (segmentIndex + 1) (points.length - 1)
  let nextPt := points.getD nextIndex (0, 0)
  if nextIndex = segmentIndex then
    let prevIndex := segmentIndex - 1
    let prevPt := points.getD prevIndex (0, 0)
    bearingDeg prevPt.1 prevPt.2 lat lng
  else bearingDeg lat lng nextPt.1 nextPt.2

/-- `_route_segments(route, segment_index, lat, lng)`: split the rounded
route points into a trail (the at most 61 vertices up to and including the
current segment, with the current point appended when distinct) and the
upcoming part (the current point followed by the remaining vertices,
collapsed to `[]` when nothing follows). -/
noncomputable def routeSegments (route : Route) (segmentIndex : ℕ) (lat lng : ℝ) :
    List (ℝ × ℝ) × List (ℝ × ℝ) :=
  let pointDicts := route.pointDicts
  let currentPoint := (roundTo 6 lat, roundTo 6 lng)
  let tailStart := segmentIndex - 60
  let trail := (pointDicts.take (segmentIndex + 1)).drop tailStart
  let trail :=
    if trail = [] ∨ trail.getLastD (0, 0) ≠ currentPoint then trail ++ [currentPoint]
    else trail
  let upcoming := currentPoint :: pointDicts.drop (segmentIndex + 1)
  let upcoming := if upcoming.length ≤ 1 then [] else upcoming
  (trail, upcoming)

/-- The `FILTER_STATE` dict: stable vehicle key to filter instance. -/
def FilterStore : Type := String → Option (KalmanFilter2D ℝ)

/-- A freshly cleared `FILTER_STATE`. -/
def emptyFilterStore : FilterStore := fun _ => none

/-- `_filter_position(vehicle_key, timestamp, lat, lng)`: fetch or lazily
create the keyed filter, step it, and store the mutated instance back. -/
noncomputable def filterPosition (store : FilterStore) (vehicleKey : String)
    (timestamp lat lng : ℝ) : FilterStore × (ℝ × ℝ) :=
  let kalman := (store vehicleKey).getD (freshKF ℝ)
  let r := kfStep kalman timestamp lat lng
  (Function.update store vehicleKey (some r.1), r.2)

/-- One vehicle snapshot record, with the fields of the dict built by
`generate_vehicle_data` (`last_update` is the ISO rendering of
`last_update_epoch` and is not modelled separately). -/
structure VehicleRecord where
  recId : ℕ
  uid : String
  recName : String
  fleetArea : String
  status : String
  speedKmh : ℝ
  heading : ℝ
  location : ℝ × ℝ
  rawLocation : ℝ × ℝ
  trail : List (ℝ × ℝ)
  upcoming : List (ℝ × ℝ)
  path : List (ℝ × ℝ)
  lastUpdateEpoch : ℝ
  etaMinutes : ℝ
  licensePlate : String
  deviceId : String
  driver : String
  vehicleType : String
  routeId : String
  routeName : String
  routeColor : String
  progress : ℝ
  distanceKm : ℝ
  origin : ℝ × ℝ
  destination : ℝ × ℝ

/-- Out-of-range default for `routes[index % len(routes)]`; the subscript
is always in range once `ROUTES` is non-empty, so the default is never
read. -/
noncomputable def defaultRoute : Route :=
  { routeId := ""
    routeName := ""
    routeColor := ""
    points := []
    pointDicts := []
    cumulativeKm := []
    lengthKm := 0
    averageSpeedKmh := 0
    loopSeconds := 0
    originLabel := ""
    origin := (0, 0)
    destinationLabel := ""
    destination := (0, 0) }

/-- Out-of-range default for `VEHICLE_PROFILES[...]`, likewise never read
(the table has ten entries). -/
def defaultProfile : VehicleProfile := ⟨"", "", "", "", ""⟩

/-- The body of `generate_vehicle_data`'s loop for one `index`, producing
the vehicle record and the updated filter store. -/
noncomputable def genVehicle (routes : List Route) (now : ℝ) (index : ℕ)
    (store : FilterStore) : VehicleRecord × FilterStore :=
  let route := routes.getD (index % routes.length) defaultRoute
  let loopSeconds : ℤ := if route.loopSeconds = 0 then 900 else route.loopSeconds
  let baseSpeed := route.averageSpeedKmh
  let phaseOffset : ℝ := index * 180
  let progressSeconds := pymod (now + phaseOffset) (loopSeconds : ℝ)
  let progressFraction := progressSeconds / (loopSeconds : ℝ)
  let targetDistance := progressFraction * route.lengthKm
  let raw := interpolatePosition route.points route.cumulativeKm targetDistance
  let rawLat := raw.1.1
  let rawLng := raw.1.2
  let segmentIndex := raw.2
  let heading := routeHeading route segmentIndex rawLat rawLng
  let speedVariation := 6 * Real.sin (now / 90 + index * (7 / 10))
  let speedKmh := max (baseSpeed + speedVariation) 8
  let remainingKm := max (route.lengthKm - targetDistance) (2 / 100)
  let etaMinutes := remainingKm / max speedKmh 5 * 60
  let status := determineStatus progressFraction speedKmh baseSpeed
  let segs := routeSegments route segmentIndex rawLat rawLng
  let profile := VEHICLE_PROFILES.getD (index % VEHICLE_PROFILES.length) defaultProfile
  let vehicleKey := route.routeId ++ ":" ++ profile.deviceId
  let filtered := filterPosition store vehicleKey now rawLat rawLng
  let filteredPoint := (roundTo 6 filtered.2.1, roundTo 6 filtered.2.2)
  let rawPoint := (roundTo 6 rawLat, roundTo 6 rawLng)
  let trailPoints :=
    if segs.1 ≠ [] then segs.1.set (segs.1.length - 1) filteredPoint else segs.1
  let upcomingPoints :=
    if segs.2 ≠ [] then segs.2.set 0 filteredPoint else segs.2
  ({ recId := index + 1
     uid := vehicleKey
     recName := profile.callsign
     fleetArea := route.routeName
     status := status
     speedKmh := roundTo 1 speedKmh
     heading := roundTo 1 heading
     location := filteredPoint
     rawLocation := rawPoint
     trail := trailPoints
     upcoming := upcomingPoints
     path := route.pointDicts
     lastUpdateEpoch := now
     etaMinutes := roundTo 1 etaMinutes
     licensePlate := profile.licensePlate
     deviceId := profile.deviceId
     driver := profile.driver
     vehicleType := profile.vehicleType
     routeId := route.routeId
     routeName := route.routeName
     routeColor := route.routeColor
     progress := roundTo 3 progressFraction
     distanceKm := roundTo 2 route.lengthKm
     origin := route.origin
     destination := route.destination }, filtered.1)

/-- The `for index in range(count)` loop, accumulating vehicle records in
order while threading the filter store. -/
noncomputable def genLoop (routes : List Route) (now : ℝ) :
    ℕ → ℕ → FilterStore → List VehicleRecord × FilterStore
  | 0, _, store => ([], store)
  | k + 1, index, store =>
    let v := genVehicle routes now index store
    let rest := genLoop routes now k (index + 1) v.2
    (v.1 :: rest.1, rest.2)

/-- `generate_vehicle_data(count)`: returns `[]` when the route collection
is empty, otherwise one record per index in `range(count)`. -/
noncomputable def generateVehicleData (routes : List Route) (now : ℝ)
    (count : ℕ) (store : FilterStore) : List VehicleRecord × FilterStore :=
  if routes.isEmpty then ([], store)
  else genLoop routes now count 0 store

/-! ## Auxiliary definitions for stating properties -/

/-- The exact failure condition of `decode_polyline6`: the input is
non-empty and either its last character carries a continuation bit
(`ord(c) - 63 ≥ 0x20`, i.e. `ord(c) ≥ 95`, so the final group is
unterminated) or the number of complete groups (characters with
`ord(c) < 95`) is odd, leaving a latitude delta without its longitude
delta. -/
def decodeFailCondition (cs : List Char) : Prop :=
  cs ≠ [] ∧ (95 ≤ (cs.getLastD 'A').toNat ∨
    cs.countP (fun c => c.toNat < 95) % 2 = 1)

/-- Positive semi-definiteness of a square matrix, stated through the
quadratic form. -/
def PSDMatrix {n : ℕ} {A : Type} [LinearOrderedField A]
    (M : Matrix (Fin n) (Fin n) A) : Prop :=
  ∀ x : Fin n → A, 0 ≤ x ⬝ᵥ M.mulVec x

/-- A concrete shapely oracle whose intersections are all empty (with a
single route definition the node phase consults no oracle at all, so any
oracle gives the same graph). -/
def shEmpty : ShapelyModel :=
  { intersectionPts := fun _ _ => []
    isNearPt := fun _ _ => false
    containsSeg := fun _ _ _ => false }

/-- The 3-node path graph A-B-C with symmetric edges of weight 2 (A-B) and
3 (B-C), built through `add_node`/`add_edge` (edge weights are Python
ints, modelled as naturals). -/
def c4Graph : Graph String ℕ :=
  ((((((Graph.empty String ℕ).addNode "A").addNode "B").addNode "C").addEdge
    "A" "B" 2 |>.addEdge "B" "A" 2 |>.addEdge "B" "C" 3 |>.addEdge "C" "B" 3))

/-- A concrete one-point route used to instantiate universally quantified
theorems at an explicit input. -/
noncomputable def sampleRoute : Route :=
  { routeId := "r1"
    routeName := "Sample"
    routeColor := "#2563eb"
    points := [(1, 2)]
    pointDicts := [(1, 2)]
    cumulativeKm := [0]
    lengthKm := 0
    averageSpeedKmh := 35
    loopSeconds := 900
    originLabel := "Origin"
    origin := (1, 2)
    destinationLabel := "Destination"
    destination := (1, 2) }

/-- Out-of-range default for indexing into a generated snapshot list. -/
noncomputable def defaultVehicleRecord : VehicleRecord :=
  { recId := 0
    uid := ""
    recName := ""
    fleetArea := ""
    status := ""
    speedKmh := 0
    heading := 0
    location := (0, 0)
    rawLocation := (0, 0)
    trail := []
    upcoming := []
    path := []
    lastUpdateEpoch := 0
    etaMinutes := 0
    licensePlate := ""
    deviceId := ""
    driver := ""
    vehicleType := ""
    routeId := ""
    routeName := ""
    routeColor := ""
    progress := 0
    distanceKm := 0
    origin := (0, 0)
    destination := (0, 0) }

/-! ## Theorems

Claim-level theorems are named `cN_...`; the remaining theorems are shared
helper lemmas. -/

/-- Helper: `_decode_value` raises the buffer-exhausted error exactly when
every remaining character (possibly none) carries a continuation bit. -/
theorem decodeValueStep_error_of_allCont (cs : List Char) (r s : ℕ)
    (h : ∀ c ∈ cs, 95 ≤ c.toNat) :
    decodeValueStep cs r s = .error "Invalid polyline: buffer exhausted." := by
  induction cs generalizing r s with
  | nil => rfl
  | cons c rest ih =>
    have hc : 95 ≤ c.toNat := h c (by simp)
    have hb : ¬ ((c.toNat : ℤ) - 63 < 32) := by
      have : (95 : ℤ) ≤ (c.toNat : ℤ) := by exact_mod_cast hc
      omega
    simp only [decodeValueStep, if_neg hb,
      ih _ _ (fun x hx => h x (List.mem_cons_of_mem _ hx))]

theorem decodeValueStep_ok_split {cs p : List Char} {t : Char} {rest : List Char}
    (hcs : cs = p ++ t :: rest) (hp : ∀ c ∈ p, 95 ≤ c.toNat)
    (ht : t.toNat < 95) (r s : ℕ) :
    ∃ d h, decodeValueStep cs r s = .ok (d, ⟨rest, h⟩) := by
  subst hcs
  induction p generalizing r s with
  | nil =>
    have hb : ((t.toNat : ℤ) - 63 < 32) := by
      have : ((t.toNat : ℤ)) < 95 := by exact_mod_cast ht
      omega
    refine ⟨zigzagDecode (r ||| ((((t.toNat : ℤ) - 63) % 32).toNat <<< s)), by simp, ?_⟩
    simp only [List.nil_append, decodeValueStep, if_pos hb]
  | cons c p' ih =>
    have hc : 95 ≤ c.toNat := hp c (by simp)
    have hb : ¬ ((c.toNat : ℤ) - 63 < 32) := by
      have : (95 : ℤ) ≤ (c.toNat : ℤ) := by exact_mod_cast hc
      omega
    obtain ⟨d, h, heq⟩ :=
      ih (fun x hx => hp x (List.mem_cons_of_mem _ hx))
        (r ||| ((((c.toNat : ℤ) - 63) % 32).toNat <<< s)) (s + 5)
    refine ⟨d, h.trans (by simp), ?_⟩
    simp only [List.cons_append, decodeValueStep, if_neg hb, List.append_eq, heq]

theorem allCont_getLastD {cs : List Char} (d : Char) (hne : cs ≠ [])
    (h : ∀ c ∈ cs, 95 ≤ c.toNat) : 95 ≤ (cs.getLastD d).toNat := by
  rw [List.getLastD_eq_getLast?, List.getLast?_eq_getLast cs hne]
  exact h _ (List.getLast_mem hne)

theorem countP_eq_zero_of_allCont {p : List Char}
    (hp : ∀ c ∈ p, 95 ≤ c.toNat) :
    p.countP (fun c => c.toNat < 95) = 0 :=
  List.countP_eq_zero.mpr fun a ha => by simpa using Nat.not_lt.mpr (hp a ha)

theorem getLastD_append_ne_nil {p l : List Char} (hl : l ≠ []) (d : Char) :
    (p ++ l).getLastD d = l.getLastD d := by
  rw [List.getLastD_eq_getLast?, List.getLastD_eq_getLast?, List.getLast?_append]
  rw [List.getLast?_eq_getLast l hl]
  rfl

theorem failCondition_shift (p p2 : List Char) (t t2 : Char) (rest2 : List Char)
    (hp : ∀ c ∈ p, 95 ≤ c.toNat) (hp2 : ∀ c ∈ p2, 95 ≤ c.toNat)
    (ht : t.toNat < 95) (ht2 : t2.toNat < 95) :
    (decodeFailCondition (p ++ t :: (p2 ++ t2 :: rest2)) ↔ decodeFailCondition rest2) := by
  have hcount : (p ++ t :: (p2 ++ t2 :: rest2)).countP (fun c => c.toNat < 95) =
      2 + rest2.countP (fun c => c.toNat < 95) := by
    rw [List.countP_append, countP_eq_zero_of_allCont hp, List.countP_cons_of_pos _ _ (by simpa using ht),
      List.countP_append, countP_eq_zero_of_allCont hp2,
      List.countP_cons_of_pos _ _ (by simpa using ht2)]
    omega
  cases hr2 : rest2 with
  | nil =>
    subst hr2
    refine iff_of_false ?_ (by simp [decodeFailCondition])
    intro hcond
    obtain ⟨-, hdis⟩ := hcond
    rcases hdis with hlast | hparity
    · rw [getLastD_append_ne_nil (by simp)] at hlast
      rw [List.getLastD_cons, getLastD_append_ne_nil (by simp), List.getLastD_cons] at hlast
      simp at hlast
      omega
    · rw [hcount] at hparity
      simp at hparity
  | cons r0 rest' =>
    unfold decodeFailCondition
    have hne2 : rest2 ≠ [] := by simp [hr2]
    rw [← hr2]
    have hlast : (p ++ t :: (p2 ++ t2 :: rest2)).getLastD 'A' = rest2.getLastD 'A' := by
      rw [getLastD_append_ne_nil (by simp), List.getLastD_cons,
        getLastD_append_ne_nil (by simp [hr2]), List.getLastD_cons,
        List.getLastD_eq_getLast?, List.getLastD_eq_getLast?,
        List.getLast?_eq_getLast rest2 hne2]
      rfl
    rw [hlast, hcount]
    constructor
    · rintro ⟨-, h⟩
      refine ⟨hne2, ?_⟩
      rcases h with h | h
      · exact Or.inl h
      · exact Or.inr (by omega)
    · rintro ⟨-, h⟩
      refine ⟨by simp, ?_⟩
      rcases h with h | h
      · exact Or.inl h
      · exact Or.inr (by omega)

theorem decodeAuxFail {A : Type} [LinearOrderedField A] :
    ∀ (n : ℕ) (cs : List Char), cs.length ≤ n → ∀ lat lng : ℤ,
      ((decodePolyline6Aux (A := A) cs lat lng).isOk = false ↔
        decodeFailCondition cs) := by
  intro n
  induction n with
  | zero =>
    intro cs hcs lat lng
    have hnil : cs = [] := List.length_eq_zero.mp (Nat.le_zero.mp hcs)
    subst hnil
    simp [decodePolyline6Aux, decodeFailCondition, Except.isOk, Except.toBool]
  | succ n ih =>
    intro cs hcs lat lng
    cases cs with
    | nil => simp [decodePolyline6Aux, decodeFailCondition, Except.isOk, Except.toBool]
    | cons c cs' =>
      cases hdrop : (c :: cs').dropWhile (fun ch => 95 ≤ ch.toNat) with
      | nil =>
        have hall : ∀ x ∈ c :: cs', 95 ≤ x.toNat := by
          intro x hx
          simpa using List.dropWhile_eq_nil_iff.mp hdrop x hx
        have hstep := decodeValueStep_error_of_allCont (c :: cs') 0 0 hall
        refine iff_of_true ?_ ⟨by simp, Or.inl (allCont_getLastD 'A' (by simp) hall)⟩
        rw [decodePolyline6Aux, hstep]
        rfl
      | cons t rest =>
        have hqt : (decide (95 ≤ t.toNat)) = false := by
          have := List.head?_dropWhile_not (fun ch => decide (95 ≤ ch.toNat)) (c :: cs')
          rw [hdrop] at this
          simpa using this
        have htlt : t.toNat < 95 := by simpa using hqt
        have hsplitcs :
            c :: cs' = ((c :: cs').takeWhile (fun ch => 95 ≤ ch.toNat)) ++ t :: rest := by
          conv_lhs => rw [← List.takeWhile_append_dropWhile
            (fun ch => decide (95 ≤ ch.toNat)) (c :: cs')]
          rw [hdrop]
        have hp : ∀ x ∈ (c :: cs').takeWhile (fun ch => 95 ≤ ch.toNat), 95 ≤ x.toNat := by
          intro x hx
          simpa using List.mem_takeWhile_imp hx
        obtain ⟨d1, h1, hstep1⟩ := decodeValueStep_ok_split hsplitcs hp htlt 0 0
        have hlen1 : rest.length ≤ n := by
          have := congrArg List.length hsplitcs
          simp at this
          omega
        cases hdrop2 : rest.dropWhile (fun ch => 95 ≤ ch.toNat) with
        | nil =>
          have hall2 : ∀ x ∈ rest, 95 ≤ x.toNat := by
            intro x hx
            simpa using List.dropWhile_eq_nil_iff.mp hdrop2 x hx
          have hstep2 := decodeValueStep_error_of_allCont rest 0 0 hall2
          refine iff_of_true ?_ ?_
          · simp only [decodePolyline6Aux, hstep1, hstep2]
            rfl
          · refine ⟨by simp, ?_⟩
            cases hrest : rest with
            | nil =>
              subst hrest
              refine Or.inr ?_
              rw [hsplitcs, List.countP_append, countP_eq_zero_of_allCont hp]
              simp [htlt]
            | cons r0 rest' =>
              refine Or.inl ?_
              rw [hsplitcs, getLastD_append_ne_nil (by simp), List.getLastD_cons]
              exact allCont_getLastD t (by simp [hrest]) hall2
        | cons t2 rest2 =>
          have hqt2 : (decide (95 ≤ t2.toNat)) = false := by
            have := List.head?_dropWhile_not (fun ch => decide (95 ≤ ch.toNat)) rest
            rw [hdrop2] at this
            simpa using this
          have htlt2 : t2.toNat < 95 := by simpa using hqt2
          have hsplit2 :
              rest = (rest.takeWhile (fun ch => 95 ≤ ch.toNat)) ++ t2 :: rest2 := by
            conv_lhs => rw [← List.takeWhile_append_dropWhile
              (fun ch => decide (95 ≤ ch.toNat)) rest]
            rw [hdrop2]
          have hp2 : ∀ x ∈ rest.takeWhile (fun ch => 95 ≤ ch.toNat), 95 ≤ x.toNat := by
            intro x hx
            simpa using List.mem_takeWhile_imp hx
          obtain ⟨d2, h2, hstep2⟩ := decodeValueStep_ok_split hsplit2 hp2 htlt2 0 0
          have hlen2 : rest2.length ≤ n := by
            have := congrArg List.length hsplit2
            simp at this
            omega
          have hIH := ih rest2 hlen2 (lat + d1) (lng + d2)
          have hshift : decodeFailCondition (c :: cs') ↔ decodeFailCondition rest2 := by
            rw [hsplitcs, hsplit2]
            exact failCondition_shift _ _ _ _ _ hp hp2 htlt htlt2
          rw [hshift, ← hIH]
          cases h3 : decodePolyline6Aux (A := A) rest2 (lat + d1) (lng + d2) with
          | error e =>
            simp only [decodePolyline6Aux, hstep1, hstep2, h3]
          | ok l =>
            simp only [decodePolyline6Aux, hstep1, hstep2, h3]
            simp [Except.isOk, Except.toBool]

/-- C5 (amended): polyline decoding fails exactly when the input is
non-empty and either ends inside a group (continuation bit set on the last
character) or ends after an odd number of complete groups (a latitude
delta without its longitude delta); in the failure case the error result
carries no coordinates at all, so no partial or garbage coordinate is ever
produced, and every coordinate of a successful decode comes from two fully
accumulated deltas. -/
theorem c5_decode_characterisation {A : Type} [LinearOrderedField A] (cs : List Char) :
    (decodePolyline6 (A := A) cs).isOk = false ↔ decodeFailCondition cs :=
  decodeAuxFail cs.length cs le_rfl 0 0

/-- C5 counterexample: decoding the one-character string "A" raises the
decode error even though no continuation bit is set on its last (only)
character — the input ends after one complete group, ruling out the
claimed "exactly when a continuation bit was set on the last character". -/
theorem c5_counterexample :
    (decodePolyline6 (A := ℚ) ['A']).isOk = false ∧ ('A'.toNat : ℤ) - 63 < 32 := by
  constructor
  · have hA : ('A'.toNat : ℤ) = 65 := by decide
    norm_num [decodePolyline6, decodePolyline6Aux, decodeValueStep, zigzagDecode, hA,
      Except.isOk, Except.toBool]
  · decide

/-- C6: decoding the two-character polyline string "AA" succeeds and
yields exactly one coordinate, equal to (0.000001, 0.000001). -/
theorem c6_decode_AA :
    decodePolyline6 (A := ℚ) ['A', 'A'] = .ok [(1 / 1000000, 1 / 1000000)] := by
  have hA : ('A'.toNat : ℤ) = 65 := by decide
  have h2' : Int.toNat 2 = 2 := by decide
  have h3 : (2 : ℕ) >>> 1 = 1 := by decide
  norm_num [decodePolyline6, decodePolyline6Aux, decodeValueStep, zigzagDecode, hA, h2', h3]

/-- C4: for the 3-node path graph A-B-C with edge weights 2 (A-B) and 3
(B-C), `dijkstra(A)` yields the distance map A:0, B:2, C:5 and a
predecessor map with C's predecessor B and B's predecessor A. -/
theorem c4_dijkstra_path_graph :
    (dijkstra c4Graph "A").1 "A" = some 0 ∧
    (dijkstra c4Graph "A").1 "B" = some 2 ∧
    (dijkstra c4Graph "A").1 "C" = some 5 ∧
    (dijkstra c4Graph "A").2 "C" = some "B" ∧
    (dijkstra c4Graph "A").2 "B" = some "A" := by
  decide

/-- C9: when no prior state exists (state or covariance missing), `step`
initialises the state vector to `[lat, lng, 0, 0]` and the covariance to
the fixed diagonal matrix with `1e-3` position variance and `1e-2`
velocity variance, records the timestamp, and returns the raw observation
`(lat, lng)` unchanged. -/
theorem c9_kalman_first_step {A : Type} [LinearOrderedField A]
    (kf : KalmanFilter2D A) (t lat lng : A)
    (h : kf.state = none ∨ kf.covariance = none) :
    kfStep kf t lat lng =
      ({ kf with
          state := some ![lat, lng, 0, 0]
          covariance := some
            !![1/1000, 0, 0, 0;
               0, 1/1000, 0, 0;
               0, 0, 1/100, 0;
               0, 0, 0, 1/100]
          lastTimestamp := some t }, (lat, lng)) := by
  cases hs : kf.state <;> cases hc : kf.covariance <;>
    simp_all [kfStep, kfInitCov]

/-- Witness for C9 at a fresh default filter over the rationals. -/
theorem c9_kalman_first_step_witness :
    kfStep (freshKF ℚ) 0 1 2 =
      ({ freshKF ℚ with
          state := some ![1, 2, 0, 0]
          covariance := some
            !![1/1000, 0, 0, 0;
               0, 1/1000, 0, 0;
               0, 0, 1/100, 0;
               0, 0, 0, 1/100]
          lastTimestamp := some 0 }, (1, 2)) :=
  c9_kalman_first_step (freshKF ℚ) 0 1 2 (Or.inl rfl)

/-- C7: the segment interpolation satisfies its stated postconditions: a
target distance at most 0 or a single-point route returns the first point;
a target distance at least the total length returns the last point (the
first-point rule taking priority, as the code orders the guards); a
zero-length located segment falls back to its start vertex; and for a
route with cumulative table [0, 5, 12, 20] a query at distance 10
interpolates between vertices 1 and 2 with ratio (10-5)/(12-5). -/
theorem c7_interpolation_postconditions {A : Type} [LinearOrderedField A] :
    (∀ (points : List (A × A)) (cumulative : List A) (d : A),
      d ≤ 0 ∨ points.length = 1 →
      (interpolatePosition points cumulative d).1 = points.getD 0 (0, 0)) ∧
    (∀ (points : List (A × A)) (cumulative : List A) (d : A),
      0 < d → cumulative.getLastD 0 ≤ d →
      (interpolatePosition points cumulative d).1 =
        points.getD (points.length - 1) (0, 0)) ∧
    (∀ (points : List (A × A)) (cumulative : List A) (d : A),
      ¬(d ≤ 0 ∨ points.length = 1) → ¬(cumulative.getLastD 0 ≤ d) →
      cumulative.getD (bisectLeft cumulative d 0 cumulative.length) 0 ≠ d →
      cumulative.getD (bisectLeft cumulative d 0 cumulative.length) 0 -
        cumulative.getD (bisectLeft cumulative d 0 cumulative.length - 1) 0 ≤ 0 →
      interpolatePosition points cumulative d =
        (points.getD (bisectLeft cumulative d 0 cumulative.length - 1) (0, 0),
         bisectLeft cumulative d 0 cumulative.length - 1)) ∧
    (∀ p0 p1 p2 p3 : A × A,
      interpolatePosition [p0, p1, p2, p3] [0, 5, 12, 20] 10 =
        ((p1.1 + (p2.1 - p1.1) * ((10 - 5) / (12 - 5)),
          p1.2 + (p2.2 - p1.2) * ((10 - 5) / (12 - 5))), 1)) := by
  refine ⟨?_, ?_, ?_, ?_⟩
  · intro points cumulative d h
    simp [interpolatePosition, if_pos h]
  · intro points cumulative d h0 hge
    by_cases h1 : d ≤ 0 ∨ points.length = 1
    · rcases h1 with h1 | h1
      · exact absurd h0 (not_lt.mpr h1)
      · simp [interpolatePosition, h1]
    · have hge' : cumulative.getLast?.getD 0 ≤ d := by
        rw [← List.getLastD_eq_getLast?]
        exact hge
      simp [interpolatePosition, if_neg h1, hge']
  · intro points cumulative d h1 h2 hne hseg
    simp only [interpolatePosition, if_neg h1, if_neg h2, if_neg hne, if_pos hseg]
  · intro p0 p1 p2 p3
    have hb : bisectLeft (A := A) [0, 5, 12, 20] 10 0 4 = 2 := by
      norm_num [bisectLeft, bisectLoop]
    norm_num [interpolatePosition, hb]

/-- Witness for C7: each conjunct applied at explicit rational inputs (the
zero-length-segment conjunct at the degenerate decreasing table
[5, 4, 3]). -/
theorem c7_interpolation_postconditions_witness :
    (interpolatePosition (A := ℚ) [(1, 2)] [0] 0).1 = [((1 : ℚ), (2 : ℚ))].getD 0 (0, 0) ∧
    (interpolatePosition (A := ℚ) [(1, 2), (3, 4)] [0, 5] 6).1 =
      [((1 : ℚ), (2 : ℚ)), (3, 4)].getD 1 (0, 0) ∧
    interpolatePosition (A := ℚ) [(1, 1), (2, 2), (3, 3)] [5, 4, 3] 2 =
      ([((1 : ℚ), (1 : ℚ)), (2, 2), (3, 3)].getD
        (bisectLeft (A := ℚ) [5, 4, 3] 2 0 3 - 1) (0, 0),
       bisectLeft (A := ℚ) [5, 4, 3] 2 0 3 - 1) ∧
    interpolatePosition (A := ℚ) [(0, 0), (1, 1), (2, 2), (3, 3)] [0, 5, 12, 20] 10 =
      ((1 + (2 - 1) * ((10 - 5) / (12 - 5)), 1 + (2 - 1) * ((10 - 5) / (12 - 5))), 1) := by
  refine ⟨?_, ?_, ?_, ?_⟩
  · exact c7_interpolation_postconditions.1 _ _ _ (by decide)
  · exact c7_interpolation_postconditions.2.1 _ _ _ (by decide) (by decide)
  · exact c7_interpolation_postconditions.2.2.1 _ _ _ (by norm_num)
      (by norm_num [List.getLastD]) (by norm_num [bisectLeft, bisectLoop])
      (by norm_num [bisectLeft, bisectLoop])
  · exact c7_interpolation_postconditions.2.2.2 (0, 0) (1, 1) (2, 2) (3, 3)

/-- Helper: the modelled `atan2` is nonnegative in the closed first
quadrant. -/
theorem atan2r_nonneg {y x : ℝ} (hy : 0 ≤ y) (hx : 0 ≤ x) : 0 ≤ atan2r y x := by
  unfold atan2r
  rcases lt_or_eq_of_le hx with hx' | hx'
  · rw [if_pos hx']
    have h0 : Real.arctan 0 ≤ Real.arctan (y / x) :=
      Real.arctan_strictMono.monotone (div_nonneg hy hx)
    rwa [Real.arctan_zero] at h0
  · rw [if_neg (by rw [← hx']; exact lt_irrefl 0),
      if_neg (by rw [← hx']; exact fun h => lt_irrefl 0 h.1),
      if_neg (by rw [← hx']; exact lt_irrefl 0)]
    rcases lt_trichotomy y 0 with hy' | hy' | hy'
    · exact absurd hy (not_le.mpr hy')
    · rw [if_neg (by rw [hy']; exact lt_irrefl 0), if_neg (by rw [hy']; exact lt_irrefl 0)]
    · rw [if_pos hy']
      positivity

/-- Helper: `haversine_km` is nonnegative. -/
theorem haversineKm_nonneg (p q : ℝ × ℝ) : 0 ≤ haversineKm p q := by
  unfold haversineKm
  have hc : 0 ≤ atan2r (Real.sqrt (Real.sin ((radiansOf q.1 - radiansOf p.1) / 2) ^ 2 +
      Real.cos (radiansOf p.1) * Real.cos (radiansOf q.1) *
        Real.sin ((radiansOf q.2 - radiansOf p.2) / 2) ^ 2))
      (Real.sqrt (1 - (Real.sin ((radiansOf q.1 - radiansOf p.1) / 2) ^ 2 +
        Real.cos (radiansOf p.1) * Real.cos (radiansOf q.1) *
          Real.sin ((radiansOf q.2 - radiansOf p.2) / 2) ^ 2))) :=
    atan2r_nonneg (Real.sqrt_nonneg _) (Real.sqrt_nonneg _)
  have hr : (0 : ℝ) ≤ EARTH_RADIUS_KM := by norm_num [EARTH_RADIUS_KM]
  positivity

/-- Helper: the cumulative-distance tail is a chain of nondecreasing
values starting from its seed. -/
theorem cumulativeTail_chain (l : List ((ℝ × ℝ) × (ℝ × ℝ))) :
    ∀ c : ℝ, List.Chain' (· ≤ ·) (c :: cumulativeTail c l) := by
  induction l with
  | nil => intro c; simp [cumulativeTail]
  | cons p rest ih =>
    intro c
    rw [cumulativeTail]
    exact List.chain'_cons.mpr
      ⟨le_add_of_nonneg_right (haversineKm_nonneg p.1 p.2), ih _⟩

/-- Helper: the cumulative tail has one entry per consecutive pair. -/
theorem cumulativeTail_length (l : List ((ℝ × ℝ) × (ℝ × ℝ))) :
    ∀ c : ℝ, (cumulativeTail c l).length = l.length := by
  induction l with
  | nil => intro c; rfl
  | cons p rest ih => intro c; rw [cumulativeTail]; simp [ih]

/-- Helper: every route built from a non-empty decode satisfies the
construction invariants. -/
theorem mkRoute_invariants (d : RouteDefinition) (coords : List (ℝ × ℝ))
    (hne : coords ≠ []) :
    (mkRoute d coords).points ≠ [] ∧
    (mkRoute d coords).cumulativeKm.head? = some 0 ∧
    List.Chain' (· ≤ ·) (mkRoute d coords).cumulativeKm ∧
    (mkRoute d coords).cumulativeKm.length = (mkRoute d coords).points.length ∧
    (mkRoute d coords).cumulativeKm.getLastD 0 = (mkRoute d coords).lengthKm ∧
    5 ≤ (mkRoute d coords).averageSpeedKmh ∧
    900 ≤ (mkRoute d coords).loopSeconds := by
  refine ⟨hne, rfl, cumulativeTail_chain _ 0, ?_, rfl, le_max_right _ _, ?_⟩
  · show (0 :: cumulativeTail 0 (coords.zip coords.tail)).length = coords.length
    rw [List.length_cons, cumulativeTail_length, List.length_zip, List.length_tail]
    have : 0 < coords.length := List.length_pos.mpr hne
    omega
  · show (900 : ℤ) ≤ pyTrunc (max ((mkRoute d coords).lengthKm /
      (mkRoute d coords).averageSpeedKmh * 3600) 900)
    have h900 : (900 : ℝ) ≤ max ((mkRoute d coords).lengthKm /
        (mkRoute d coords).averageSpeedKmh * 3600) 900 := le_max_right _ _
    rw [pyTrunc, if_pos (by linarith)]
    exact Int.le_floor.mpr (by exact_mod_cast h900)

/-- C8: every route produced by the builder satisfies the construction
invariants: the cumulative table starts at 0, is non-decreasing, matches
the point list in length, and ends at the route length; the average speed
is at least 5 km/h and the loop duration at least 900 seconds; and a
definition decoding to zero points is dropped, so every produced route has
at least one point. -/
theorem c8_route_invariants (defs : List RouteDefinition) :
    (builtRoutes defs).Forall fun r =>
      r.points ≠ [] ∧
      r.cumulativeKm.head? = some 0 ∧
      List.Chain' (· ≤ ·) r.cumulativeKm ∧
      r.cumulativeKm.length = r.points.length ∧
      r.cumulativeKm.getLastD 0 = r.lengthKm ∧
      5 ≤ r.averageSpeedKmh ∧
      900 ≤ r.loopSeconds := by
  induction defs with
  | nil => simp [builtRoutes, buildRoutes]
  | cons d rest ih =>
    rw [builtRoutes, buildRoutes]
    split
    · rename_i rs heq
      split at heq
      · exact absurd heq (by simp)
      · rename_i coords hdec
        split at heq
        · rw [builtRoutes, heq] at ih
          exact ih
        · rename_i hc
          split at heq
          · exact absurd heq (by simp)
          · rename_i rs' hrest
            obtain rfl := (Except.ok.inj heq).symm
            refine List.forall_cons _ _ _ |>.mpr ⟨mkRoute_invariants d coords hc, ?_⟩
            rw [builtRoutes, hrest] at ih
            exact ih
    · simp

/-- Helper: the raw location of one generated record does not depend on
the filter store (it is computed before the Kalman step). -/
theorem genVehicle_rawLocation_store_indep (routes : List Route) (now : ℝ)
    (index : ℕ) (s s' : FilterStore) :
    (genVehicle routes now index s).1.rawLocation =
      (genVehicle routes now index s').1.rawLocation := rfl

/-- Helper: the per-index raw locations of a generation loop do not depend
on the incoming filter store. -/
theorem genLoop_rawLocations_store_indep (routes : List Route) (now : ℝ) :
    ∀ (k index : ℕ) (s s' : FilterStore),
      (genLoop routes now k index s).1.map VehicleRecord.rawLocation =
        (genLoop routes now k index s').1.map VehicleRecord.rawLocation := by
  intro k
  induction k with
  | zero => intro index s s'; rfl
  | succ k ih =>
    intro index s s'
    rw [genLoop, genLoop]
    simp only [List.map_cons]
    rw [genVehicle_rawLocation_store_indep routes now index s s', ih]

/-- C2: two runs of the position simulator over the same route set, the
same injected time and the same vehicle count yield identical raw
(unfiltered) positions record for record, whatever the two filter stores
contain — in particular for two runs each starting from a freshly cleared
store. -/
theorem c2_raw_positions_deterministic (routes : List Route) (now : ℝ)
    (count : ℕ) (s s' : FilterStore) :
    (generateVehicleData routes now count s).1.map VehicleRecord.rawLocation =
      (generateVehicleData routes now count s').1.map VehicleRecord.rawLocation := by
  unfold generateVehicleData
  by_cases h : routes.isEmpty
  · simp [h]
  · simp only [h, Bool.false_eq_true, if_false]
    exact genLoop_rawLocations_store_indep routes now count 0 s s'

/-- Helper: the generation loop produces exactly one record per index. -/
theorem genLoop_length (routes : List Route) (now : ℝ) :
    ∀ (k index : ℕ) (s : FilterStore),
      (genLoop routes now k index s).1.length = k := by
  intro k
  induction k with
  | zero => intro index s; rfl
  | succ k ih =>
    intro index s
    rw [genLoop]
    simp [ih]

/-- Helper: record `j` of the generation loop started at `index` is the
record generated for index `index + j` under some intermediate store. -/
theorem genLoop_getD (routes : List Route) (now : ℝ) :
    ∀ (k j index : ℕ) (s : FilterStore), j < k →
      ∃ s', (genLoop routes now k index s).1.getD j defaultVehicleRecord =
        (genVehicle routes now (index + j) s').1 := by
  intro k
  induction k with
  | zero => intro j index s h; omega
  | succ k ih =>
    intro j index s h
    rw [genLoop]
    cases j with
    | zero => exact ⟨s, rfl⟩
    | succ j =>
      have hj : j < k := by omega
      obtain ⟨s', hs'⟩ := ih j (index + 1) (genVehicle routes now index s).2 hj
      refine ⟨s', ?_⟩
      simpa [Nat.add_assoc, Nat.add_comm 1 j] using hs' 

/-- C10: the vehicle-snapshot generator returns an empty list when the
route collection is empty, and otherwise returns exactly `count` records,
record `i` (0-based) being assigned route `i mod len(routes)` and vehicle
profile `i mod len(VEHICLE_PROFILES)`. -/
theorem c10_generate_vehicle_assignment (routes : List Route) (now : ℝ)
    (count : ℕ) (store : FilterStore) :
    (routes = [] → (generateVehicleData routes now count store).1 = []) ∧
    (routes ≠ [] →
      (generateVehicleData routes now count store).1.length = count ∧
      ∀ i, i < count →
        ((generateVehicleData routes now count store).1.getD i
            defaultVehicleRecord).routeId =
          (routes.getD (i % routes.length) defaultRoute).routeId ∧
        ((generateVehicleData routes now count store).1.getD i
            defaultVehicleRecord).recName =
          (VEHICLE_PROFILES.getD (i % VEHICLE_PROFILES.length)
            defaultProfile).callsign ∧
        ((generateVehicleData routes now count store).1.getD i
            defaultVehicleRecord).licensePlate =
          (VEHICLE_PROFILES.getD (i % VEHICLE_PROFILES.length)
            defaultProfile).licensePlate ∧
        ((generateVehicleData routes now count store).1.getD i
            defaultVehicleRecord).deviceId =
          (VEHICLE_PROFILES.getD (i % VEHICLE_PROFILES.length)
            defaultProfile).deviceId ∧
        ((generateVehicleData routes now count store).1.getD i
            defaultVehicleRecord).driver =
          (VEHICLE_PROFILES.getD (i % VEHICLE_PROFILES.length)
            defaultProfile).driver ∧
        ((generateVehicleData routes now count store).1.getD i
            defaultVehicleRecord).vehicleType =
          (VEHICLE_PROFILES.getD (i % VEHICLE_PROFILES.length)
            defaultProfile).vehicleType) := by
  constructor
  · intro h
    simp [generateVehicleData, h]
  · intro h
    have hne : routes.isEmpty = false := by
      cases routes with
      | nil => exact absurd rfl h
      | cons a l => rfl
    constructor
    · simp [generateVehicleData, hne, genLoop_length]
    · intro i hi
      obtain ⟨s', hs'⟩ := genLoop_getD routes now count i 0 store hi
      rw [Nat.zero_add] at hs'
      simp only [generateVehicleData, hne, Bool.false_eq_true, if_false, hs']
      exact ⟨rfl, rfl, rfl, rfl, rfl, rfl⟩

/-- Witness for C10 at the empty route list and at a one-route list. -/
theorem c10_generate_vehicle_assignment_witness :
    (generateVehicleData [] 0 3 emptyFilterStore).1 = [] ∧
    (generateVehicleData [sampleRoute] 0 1 emptyFilterStore).1.length = 1 ∧
    ((generateVehicleData [sampleRoute] 0 1 emptyFilterStore).1.getD 0
        defaultVehicleRecord).routeId =
      ([sampleRoute].getD (0 % [sampleRoute].length) defaultRoute).routeId ∧
    ((generateVehicleData [sampleRoute] 0 1 emptyFilterStore).1.getD 0
        defaultVehicleRecord).recName =
      (VEHICLE_PROFILES.getD (0 % VEHICLE_PROFILES.length)
        defaultProfile).callsign := by
  refine ⟨(c10_generate_vehicle_assignment [] 0 3 emptyFilterStore).1 rfl, ?_, ?_, ?_⟩
  · exact ((c10_generate_vehicle_assignment [sampleRoute] 0 1 emptyFilterStore).2
      (by simp)).1
  · exact (((c10_generate_vehicle_assignment [sampleRoute] 0 1 emptyFilterStore).2
      (by simp)).2 0 Nat.one_pos).1
  · exact (((c10_generate_vehicle_assignment [sampleRoute] 0 1 emptyFilterStore).2
      (by simp)).2 0 Nat.one_pos).2.1

/-- Helper: congruence preserves positive semi-definiteness. -/
theorem psd_congruence {A : Type} [LinearOrderedField A] {m n : ℕ}
    (B : Matrix (Fin m) (Fin n) A) {M : Matrix (Fin n) (Fin n) A}
    (h : PSDMatrix M) : PSDMatrix (B * M * Bᵀ) := by
  intro x
  have h1 : (B * M * Bᵀ).mulVec x = B.mulVec (M.mulVec (Bᵀ.mulVec x)) := by
    rw [← Matrix.mulVec_mulVec, ← Matrix.mulVec_mulVec]
  rw [h1, Matrix.dotProduct_mulVec, ← Matrix.mulVec_transpose]
  exact h _

theorem psd_add {A : Type} [LinearOrderedField A] {n : ℕ}
    {M N : Matrix (Fin n) (Fin n) A} (hM : PSDMatrix M) (hN : PSDMatrix N) :
    PSDMatrix (M + N) := by
  intro x
  rw [Matrix.add_mulVec, Matrix.dotProduct_add]
  exact add_nonneg (hM x) (hN x)

theorem psd_initCov {A : Type} [LinearOrderedField A] :
    (kfInitCov A).IsSymm ∧ PSDMatrix (kfInitCov A) := by
  constructor
  · ext i j
    fin_cases i <;> fin_cases j <;>
      simp [kfInitCov, Matrix.vecHead, Matrix.vecTail]
  · intro x
    simp only [kfInitCov, Matrix.mulVec, Matrix.dotProduct, Fin.sum_univ_four]
    simp [Matrix.vecHead, Matrix.vecTail]
    nlinarith [mul_self_nonneg (x 0), mul_self_nonneg (x 1),
      mul_self_nonneg (x 2), mul_self_nonneg (x 3)]

theorem kfQ_isSymm {A : Type} [LinearOrderedField A] (q dt : A) :
    (kfQ q dt).IsSymm := by
  ext i j
  fin_cases i <;> fin_cases j <;>
    simp [kfQ, Matrix.vecHead, Matrix.vecTail]

theorem psd_kfQ {A : Type} [LinearOrderedField A] (q dt : A) (hq : 0 ≤ q) :
    PSDMatrix (kfQ q dt) := by
  intro x
  simp only [kfQ, Matrix.mulVec, Matrix.dotProduct, Fin.sum_univ_four]
  simp [Matrix.vecHead, Matrix.vecTail]
  nlinarith [mul_nonneg hq (mul_self_nonneg (dt * dt / 2 * x 0 + dt * x 2)),
    mul_nonneg hq (mul_self_nonneg (dt * dt / 2 * x 1 + dt * x 3))]

theorem kfPredict_cov {A : Type} [LinearOrderedField A]
    {kf : KalmanFilter2D A} {dt : A} (hq : 0 ≤ kf.processVariance)
    {C : Matrix (Fin 4) (Fin 4) A}
    (hcov : (kfPredict kf dt).covariance = some C)
    (hinv : kf.covariance = none ∨
      ∃ P, kf.covariance = some P ∧ P.IsSymm ∧ PSDMatrix P) :
    C.IsSymm ∧ PSDMatrix C := by
  rcases hinv with hnone | ⟨P, hP, hsym, hpsd⟩
  · cases hs : kf.state <;> simp [kfPredict, hs, hnone] at hcov
  · have hsym' : Pᵀ = P := hsym
    have hq' : (kfQ kf.processVariance dt)ᵀ = kfQ kf.processVariance dt :=
      kfQ_isSymm _ _
    cases hs : kf.state with
    | none =>
      simp only [kfPredict, hs, hP] at hcov
      obtain rfl := Option.some.inj hcov
      exact ⟨hsym, hpsd⟩
    | some sv =>
      simp only [kfPredict, hs, hP] at hcov
      obtain rfl := Option.some.inj hcov
      refine ⟨?_, psd_add (psd_congruence (kfA dt) hpsd) (psd_kfQ _ _ hq)⟩
      show _ = _
      rw [Matrix.transpose_add, hq', Matrix.transpose_mul, Matrix.transpose_mul,
        Matrix.transpose_transpose, hsym', Matrix.mul_assoc]

theorem quad_discriminant {A : Type} [LinearOrderedField A] {a b c : A}
    (h : ∀ t u : A, 0 ≤ a * t ^ 2 + 2 * b * (t * u) + c * u ^ 2) :
    0 ≤ a ∧ 0 ≤ c ∧ b ^ 2 ≤ a * c := by
  have ha : 0 ≤ a := by have := h 1 0; nlinarith
  have hc : 0 ≤ c := by have := h 0 1; nlinarith
  refine ⟨ha, hc, ?_⟩
  rcases eq_or_lt_of_le ha with ha0 | hapos
  · have hb : b = 0 := by
      by_contra hb
      have ht := h (-(c + 1) / (2 * b)) 1
      rw [← ha0] at ht
      have h2b : (2 : A) * b ≠ 0 := by
        intro h2
        exact hb (by linarith [mul_eq_zero.mp h2, two_ne_zero (α := A)])
      field_simp at ht
      nlinarith
    rw [← ha0, hb]
    nlinarith
  · have := h (-b) a
    nlinarith

theorem psd_principal_2x2 {A : Type} [LinearOrderedField A]
    {P : Matrix (Fin 4) (Fin 4) A} (hpsd : PSDMatrix P) (hsym : P.IsSymm) :
    0 ≤ P 0 0 ∧ 0 ≤ P 1 1 ∧ P 0 1 ^ 2 ≤ P 0 0 * P 1 1 := by
  have hba : P 1 0 = P 0 1 := by
    have := congrFun (congrFun (hsym : Pᵀ = P) 1) 0
    simpa [Matrix.transpose_apply] using this.symm
  have h : ∀ t u : A, 0 ≤ P 0 0 * t ^ 2 + 2 * P 0 1 * (t * u) + P 1 1 * u ^ 2 := by
    intro t u
    have := hpsd ![t, u, 0, 0]
    simp only [Matrix.dotProduct, Matrix.mulVec, Fin.sum_univ_four] at this
    simp [Matrix.vecHead, Matrix.vecTail, hba] at this
    nlinarith [this]
  exact quad_discriminant h

theorem invert2x2_no_clamp {A : Type} [LinearOrderedField A]
    {S : Matrix (Fin 2) (Fin 2) A}
    (hdet : ¬ |S 0 0 * S 1 1 - S 0 1 * S 1 0| < 1 / 1000000000000) :
    invert2x2 S =
      !![S 1 1 * (1 / (S 0 0 * S 1 1 - S 0 1 * S 1 0)),
         -(S 0 1) * (1 / (S 0 0 * S 1 1 - S 0 1 * S 1 0));
         -(S 1 0) * (1 / (S 0 0 * S 1 1 - S 0 1 * S 1 0)),
         S 0 0 * (1 / (S 0 0 * S 1 1 - S 0 1 * S 1 0))] := by
  simp only [invert2x2, if_neg hdet]

theorem invert2x2_mul_self {A : Type} [LinearOrderedField A]
    {S : Matrix (Fin 2) (Fin 2) A}
    (hdet : ¬ |S 0 0 * S 1 1 - S 0 1 * S 1 0| < 1 / 1000000000000)
    (hne : S 0 0 * S 1 1 - S 0 1 * S 1 0 ≠ 0) :
    invert2x2 S * S = 1 ∧ S * invert2x2 S = 1 := by
  rw [invert2x2_no_clamp hdet]
  constructor <;>
  · ext i j
    fin_cases i <;> fin_cases j <;>
      · simp [Matrix.mul_apply, Fin.sum_univ_two, Matrix.vecHead, Matrix.vecTail,
          Matrix.one_apply]
        field_simp
        ring

theorem invert2x2_symm {A : Type} [LinearOrderedField A]
    {S : Matrix (Fin 2) (Fin 2) A} (hS : S 1 0 = S 0 1) :
    (invert2x2 S)ᵀ = invert2x2 S := by
  unfold invert2x2
  ext i j
  fin_cases i <;> fin_cases j <;>
    simp [Matrix.vecHead, Matrix.vecTail, hS]

theorem HPHt_entries {A : Type} [LinearOrderedField A]
    (P : Matrix (Fin 4) (Fin 4) A) :
    (kfH * P * (kfH (A := A))ᵀ : Matrix (Fin 2) (Fin 2) A) 0 0 = P 0 0 ∧
    (kfH * P * (kfH (A := A))ᵀ : Matrix (Fin 2) (Fin 2) A) 0 1 = P 0 1 ∧
    (kfH * P * (kfH (A := A))ᵀ : Matrix (Fin 2) (Fin 2) A) 1 0 = P 1 0 ∧
    (kfH * P * (kfH (A := A))ᵀ : Matrix (Fin 2) (Fin 2) A) 1 1 = P 1 1 := by
  refine ⟨?_, ?_, ?_, ?_⟩ <;>
    simp [Matrix.mul_apply, kfH, Fin.sum_univ_four, Fin.sum_univ_two,
      Matrix.vecHead, Matrix.vecTail, Matrix.vecMul, Matrix.dotProduct]

theorem psd_R2 {A : Type} [LinearOrderedField A] {r : A} (hr : 0 ≤ r) :
    PSDMatrix (!![r, 0; 0, r] : Matrix (Fin 2) (Fin 2) A) := by
  intro z
  simp only [Matrix.mulVec, Matrix.dotProduct, Fin.sum_univ_two]
  simp [Matrix.vecHead, Matrix.vecTail]
  nlinarith [mul_nonneg hr (mul_self_nonneg (z 0)), mul_nonneg hr (mul_self_nonneg (z 1))]

theorem kfUpdate_psd_core {A : Type} [LinearOrderedField A]
    {P : Matrix (Fin 4) (Fin 4) A} {r : A}
    (hsym : Pᵀ = P) (hpsd : PSDMatrix P) (hr : 0 < r)
    (hr2 : 1 / 1000000000000 ≤ r ^ 2) :
    (((1 : Matrix (Fin 4) (Fin 4) A) -
        (P * (kfH (A := A))ᵀ * invert2x2 (kfH * P * (kfH (A := A))ᵀ +
          !![r, 0; 0, r])) * kfH) * P).IsSymm ∧
    PSDMatrix (((1 : Matrix (Fin 4) (Fin 4) A) -
        (P * (kfH (A := A))ᵀ * invert2x2 (kfH * P * (kfH (A := A))ᵀ +
          !![r, 0; 0, r])) * kfH) * P) := by
  obtain ⟨h00, h01, h10, h11⟩ := HPHt_entries (A := A) P
  have hb : P 1 0 = P 0 1 := by
    have h := congrFun (congrFun hsym 0) 1
    simpa [Matrix.transpose_apply] using h
  obtain ⟨ha, hd, hbd⟩ := psd_principal_2x2 hpsd hsym
  have hS00 : (kfH * P * (kfH (A := A))ᵀ + !![r, 0; 0, r] : Matrix (Fin 2) (Fin 2) A) 0 0 = P 0 0 + r := by
    simp [Matrix.add_apply, h00, Matrix.vecHead, Matrix.vecTail]
  have hS01 : (kfH * P * (kfH (A := A))ᵀ + !![r, 0; 0, r] : Matrix (Fin 2) (Fin 2) A) 0 1 = P 0 1 := by
    simp [Matrix.add_apply, h01, Matrix.vecHead, Matrix.vecTail]
  have hS10 : (kfH * P * (kfH (A := A))ᵀ + !![r, 0; 0, r] : Matrix (Fin 2) (Fin 2) A) 1 0 = P 1 0 := by
    simp [Matrix.add_apply, h10, Matrix.vecHead, Matrix.vecTail]
  have hS11 : (kfH * P * (kfH (A := A))ᵀ + !![r, 0; 0, r] : Matrix (Fin 2) (Fin 2) A) 1 1 = P 1 1 + r := by
    simp [Matrix.add_apply, h11, Matrix.vecHead, Matrix.vecTail]
  set S : Matrix (Fin 2) (Fin 2) A := kfH * P * (kfH (A := A))ᵀ + !![r, 0; 0, r]
    with hSdef
  have hdetge : r ^ 2 ≤ S 0 0 * S 1 1 - S 0 1 * S 1 0 := by
    rw [hS00, hS01, hS10, hS11, hb]
    nlinarith
  have hdetpos : 0 < S 0 0 * S 1 1 - S 0 1 * S 1 0 :=
    lt_of_lt_of_le (by positivity) hdetge
  have hnoclamp : ¬ |S 0 0 * S 1 1 - S 0 1 * S 1 0| < 1 / 1000000000000 := by
    rw [abs_of_pos hdetpos]
    exact not_lt.mpr (le_trans hr2 hdetge)
  obtain ⟨hSinvS, hSSinv⟩ := invert2x2_mul_self hnoclamp (ne_of_gt hdetpos)
  have hS10' : S 1 0 = S 0 1 := by rw [hS10, hS01, hb]
  have hSinvT : (invert2x2 S)ᵀ = invert2x2 S := invert2x2_symm hS10'
  have hKL : P * (kfH (A := A))ᵀ * invert2x2 S = (invert2x2 S * (kfH (A := A) * P))ᵀ := by
    rw [Matrix.transpose_mul, Matrix.transpose_mul, hSinvT, hsym]
  have hSL : S * (invert2x2 S * (kfH (A := A) * P)) = kfH (A := A) * P := by
    rw [← Matrix.mul_assoc, hSSinv, Matrix.one_mul]
  have hR2eq : kfH (A := A) * P * (kfH (A := A))ᵀ = S - !![r, 0; 0, r] := by
    rw [hSdef, add_sub_cancel_right]
  constructor
  · show _ = _
    rw [Matrix.transpose_mul, Matrix.transpose_sub, Matrix.transpose_one,
      Matrix.transpose_mul, hsym, hKL, Matrix.transpose_transpose,
      Matrix.mul_sub, Matrix.sub_mul, Matrix.mul_one, Matrix.one_mul]
    congr 1
    rw [← hKL]
    simp only [Matrix.mul_assoc]
  · intro x
    set L := invert2x2 S * (kfH (A := A) * P) with hLdef
    set z : Fin 2 → A := L.mulVec x with hzdef
    set w : Fin 4 → A := (kfH (A := A))ᵀ.mulVec z with hwdef
    have hw' : w = z ᵥ* kfH := by rw [hwdef, Matrix.mulVec_transpose]
    have e2 : w ⬝ᵥ P.mulVec x = z ⬝ᵥ S.mulVec z := by
      rw [hw', ← Matrix.dotProduct_mulVec, Matrix.mulVec_mulVec, ← hSL,
        ← Matrix.mulVec_mulVec]
    have e1 : x ⬝ᵥ P.mulVec w = z ⬝ᵥ S.mulVec z := by
      rw [Matrix.dotProduct_mulVec, ← Matrix.mulVec_transpose, hsym,
        Matrix.dotProduct_comm]
      exact e2
    have e3 : w ⬝ᵥ P.mulVec w = z ⬝ᵥ S.mulVec z - z ⬝ᵥ
        (!![r, 0; 0, r] : Matrix (Fin 2) (Fin 2) A).mulVec z := by
      have hcong : w ⬝ᵥ P.mulVec w = z ⬝ᵥ (kfH (A := A) * P * (kfH (A := A))ᵀ).mulVec z := by
        rw [hwdef, ← Matrix.mulVec_mulVec, ← Matrix.mulVec_mulVec,
          Matrix.dotProduct_mulVec (z) (kfH), ← Matrix.mulVec_transpose]
      rw [hcong, hR2eq, Matrix.sub_mulVec, Matrix.dotProduct_sub]
    have hkey : 0 ≤ (x - w) ⬝ᵥ P.mulVec (x - w) + z ⬝ᵥ
        (!![r, 0; 0, r] : Matrix (Fin 2) (Fin 2) A).mulVec z :=
      add_nonneg (hpsd (x - w)) (psd_R2 hr.le z)
    have hexp : (x - w) ⬝ᵥ P.mulVec (x - w) =
        x ⬝ᵥ P.mulVec x - x ⬝ᵥ P.mulVec w - w ⬝ᵥ P.mulVec x + w ⬝ᵥ P.mulVec w := by
      rw [Matrix.mulVec_sub, Matrix.dotProduct_sub, Matrix.sub_dotProduct,
        Matrix.sub_dotProduct]
      ring
    have hP' : ((1 : Matrix (Fin 4) (Fin 4) A) -
        (P * (kfH (A := A))ᵀ * invert2x2 S) * kfH) * P =
        P - Lᵀ * (kfH (A := A) * P) := by
      rw [Matrix.sub_mul, Matrix.one_mul, hKL]
      congr 1
      simp only [Matrix.mul_assoc]
    have hqf : x ⬝ᵥ ((((1 : Matrix (Fin 4) (Fin 4) A) -
        (P * (kfH (A := A))ᵀ * invert2x2 S) * kfH) * P).mulVec x) =
        x ⬝ᵥ P.mulVec x - z ⬝ᵥ S.mulVec z := by
      rw [hP', Matrix.sub_mulVec, Matrix.dotProduct_sub]
      congr 1
      rw [← hSL, ← Matrix.mulVec_mulVec, ← Matrix.mulVec_mulVec,
        Matrix.dotProduct_mulVec, Matrix.vecMul_transpose]
    rw [hqf]
    linarith [hkey, hexp, e1, e2, e3]

theorem kfPredict_params {A : Type} [LinearOrderedField A]
    (kf : KalmanFilter2D A) (dt : A) :
    (kfPredict kf dt).processVariance = kf.processVariance ∧
    (kfPredict kf dt).measurementVariance = kf.measurementVariance := by
  unfold kfPredict
  cases hs : kf.state <;> cases hc : kf.covariance <;> simp

theorem kfUpdate_cov {A : Type} [LinearOrderedField A] {kf : KalmanFilter2D A}
    {lat lng : A} (hr : 0 < kf.measurementVariance)
    (hr2 : 1 / 1000000000000 ≤ kf.measurementVariance ^ 2)
    {C : Matrix (Fin 4) (Fin 4) A}
    (hcov : (kfUpdate kf lat lng).1.covariance = some C)
    (hinv : kf.covariance = none ∨
      ∃ P, kf.covariance = some P ∧ P.IsSymm ∧ PSDMatrix P) :
    C.IsSymm ∧ PSDMatrix C := by
  rcases hinv with hnone | ⟨P, hP, hsym, hpsd⟩
  · cases hs : kf.state <;> simp [kfUpdate, hs, hnone] at hcov
  · cases hs : kf.state with
    | none =>
      simp only [kfUpdate, hs, hP] at hcov
      obtain rfl := Option.some.inj hcov
      exact ⟨hsym, hpsd⟩
    | some sv =>
      simp only [kfUpdate, hs, hP] at hcov
      obtain rfl := Option.some.inj hcov
      exact kfUpdate_psd_core hsym hpsd hr hr2

theorem kfStep_params {A : Type} [LinearOrderedField A]
    (kf : KalmanFilter2D A) (t lat lng : A) :
    (kfStep kf t lat lng).1.processVariance = kf.processVariance ∧
    (kfStep kf t lat lng).1.measurementVariance = kf.measurementVariance := by
  unfold kfStep
  cases hs : kf.state <;> cases hc : kf.covariance <;> simp [kfUpdate, kfPredict]

theorem kfStep_cov_helper {A : Type} [LinearOrderedField A]
    (kf0 : KalmanFilter2D A) (dt lat lng : A)
    (hq : 0 ≤ kf0.processVariance) (hr : 0 < kf0.measurementVariance)
    (hr2 : 1 / 1000000000000 ≤ kf0.measurementVariance ^ 2)
    (hinv : kf0.covariance = none ∨
      ∃ P, kf0.covariance = some P ∧ P.IsSymm ∧ PSDMatrix P)
    {C : Matrix (Fin 4) (Fin 4) A}
    (hcov : (kfUpdate (kfPredict kf0 dt) lat lng).1.covariance = some C) :
    C.IsSymm ∧ PSDMatrix C := by
  have hparams := kfPredict_params kf0 dt
  refine kfUpdate_cov ?_ ?_ hcov ?_
  · rw [hparams.2]; exact hr
  · rw [hparams.2]; exact hr2
  · cases hpc : (kfPredict kf0 dt).covariance with
    | none => exact Or.inl rfl
    | some C' => exact Or.inr ⟨C', rfl, kfPredict_cov hq hpc hinv⟩

theorem kfStep_cov {A : Type} [LinearOrderedField A] {kf : KalmanFilter2D A}
    {t lat lng : A} (hq : 0 ≤ kf.processVariance)
    (hr : 0 < kf.measurementVariance)
    (hr2 : 1 / 1000000000000 ≤ kf.measurementVariance ^ 2)
    {C : Matrix (Fin 4) (Fin 4) A}
    (hcov : (kfStep kf t lat lng).1.covariance = some C)
    (hinv : kf.covariance = none ∨
      ∃ P, kf.covariance = some P ∧ P.IsSymm ∧ PSDMatrix P) :
    C.IsSymm ∧ PSDMatrix C := by
  cases hs : kf.state with
  | none =>
    cases hc : kf.covariance <;>
    · simp only [kfStep, hs, hc] at hcov
      obtain rfl := Option.some.inj hcov
      exact psd_initCov
  | some sv =>
    cases hc : kf.covariance with
    | none =>
      simp only [kfStep, hs, hc] at hcov
      obtain rfl := Option.some.inj hcov
      exact psd_initCov
    | some P =>
      rcases hinv with hbad | ⟨P', hP', hsym, hpsd⟩
      · exact absurd (hbad.symm.trans hc) (by simp)
      · obtain rfl : P' = P := Option.some.inj (hP'.symm.trans hc)
        simp only [kfStep, hs, hc] at hcov
        refine kfStep_cov_helper _ _ _ _ ?_ ?_ ?_ ?_ hcov
        · exact hq
        · exact hr
        · exact hr2
        · exact Or.inr ⟨P', rfl, hsym, hpsd⟩

theorem kfStepMany_cov {A : Type} [LinearOrderedField A] :
    ∀ (inputs : List (A × A × A)) (kf : KalmanFilter2D A),
      0 ≤ kf.processVariance → 0 < kf.measurementVariance →
      1 / 1000000000000 ≤ kf.measurementVariance ^ 2 →
      (kf.covariance = none ∨
        ∃ P, kf.covariance = some P ∧ P.IsSymm ∧ PSDMatrix P) →
      ∀ C, (kfStepMany kf inputs).covariance = some C →
        C.IsSymm ∧ PSDMatrix C := by
  intro inputs
  induction inputs with
  | nil =>
    intro kf _ _ _ hinv C hcov
    rcases hinv with hnone | ⟨P, hP, hsym, hpsd⟩
    · exact absurd ((rfl : (kfStepMany kf []).covariance = kf.covariance).symm.trans
        hcov |>.symm.trans hnone) (by simp)
    · obtain rfl := Option.some.inj (hP.symm.trans hcov)
      exact ⟨hsym, hpsd⟩
  | cons i rest ih =>
    intro kf hq hr hr2 hinv C hcov
    have hstep := kfStep_params kf i.1 i.2.1 i.2.2
    refine ih (kfStep kf i.1 i.2.1 i.2.2).1 ?_ ?_ ?_ ?_ C hcov
    · rw [hstep.1]; exact hq
    · rw [hstep.2]; exact hr
    · rw [hstep.2]; exact hr2
    · cases hc : (kfStep kf i.1 i.2.1 i.2.2).1.covariance with
      | none => exact Or.inl rfl
      | some C' => exact Or.inr ⟨C', rfl, kfStep_cov hq hr hr2 hc hinv⟩

/-- C3: along every sequence of `step` calls on a default-constructed
`KalmanFilter2D` (with exact arithmetic), the 4x4 covariance matrix is
symmetric and positive semi-definite whenever it is present — after the
initialisation and after every subsequent predict/update cycle (every
prefix of the input sequence is itself such a sequence). -/
theorem c3_kalman_covariance_psd {A : Type} [LinearOrderedField A]
    (inputs : List (A × A × A)) (C : Matrix (Fin 4) (Fin 4) A)
    (hcov : (kfStepMany (freshKF A) inputs).covariance = some C) :
    C.IsSymm ∧ PSDMatrix C := by
  refine kfStepMany_cov inputs (freshKF A) ?_ ?_ ?_ (Or.inl rfl) C hcov
  · show (0 : A) ≤ 5 / 10000000
    positivity
  · show (0 : A) < 2 / 1000000
    positivity
  · show (1 : A) / 1000000000000 ≤ (2 / 1000000) ^ 2
    norm_num

/-- Witness for C3: one step from a fresh filter over the rationals
installs the initial covariance, which is symmetric and PSD. -/
theorem c3_kalman_covariance_psd_witness :
    (kfInitCov ℚ).IsSymm ∧ PSDMatrix (kfInitCov ℚ) :=
  c3_kalman_covariance_psd [((0 : ℚ), 0, 0)] (kfInitCov ℚ) rfl

theorem addNode_nodes {V W : Type} [DecidableEq V] (g : Graph V W) (c v : V)
    (h : v ∈ (g.addNode c).nodes) : v ∈ g.nodes ∨ v = c := by
  unfold Graph.addNode at h
  by_cases hc : c ∈ g.nodes
  · simp [hc] at h
    exact Or.inl h
  · simp [hc] at h
    rcases h with h | h
    · exact Or.inl h
    · exact Or.inr h

theorem foldl_addNode_nodes {V W : Type} [DecidableEq V] (cs : List V) :
    ∀ (g : Graph V W) (v : V), v ∈ (cs.foldl Graph.addNode g).nodes →
      v ∈ g.nodes ∨ v ∈ cs := by
  induction cs with
  | nil => intro g v h; exact Or.inl h
  | cons c rest ih =>
    intro g v h
    rcases ih (g.addNode c) v h with h' | h'
    · rcases addNode_nodes g c v h' with h2 | h2
      · exact Or.inl h2
      · exact Or.inr (by simp [h2])
    · exact Or.inr (by simp [h'])

theorem addNode_distances {V W : Type} [DecidableEq V] (g : Graph V W) (c : V) :
    (g.addNode c).distances = g.distances := rfl

theorem foldl_addNode_distances {V W : Type} [DecidableEq V] (cs : List V) :
    ∀ g : Graph V W, (cs.foldl Graph.addNode g).distances = g.distances := by
  induction cs with
  | nil => intro g; rfl
  | cons c rest ih =>
    intro g
    rw [List.foldl_cons, ih]
    rfl

theorem pairsLT_mem {n : ℕ} {p : ℕ × ℕ} (h : p ∈ pairsLT n) :
    p.1 < p.2 ∧ p.2 < n := by
  unfold pairsLT at h
  rw [List.mem_flatMap] at h
  obtain ⟨i, hi, hp⟩ := h
  rw [List.mem_map] at hp
  obtain ⟨j, hj, rfl⟩ := hp
  rw [List.mem_range'_1] at hj
  rw [List.mem_range] at hi
  exact ⟨by omega, by omega⟩

theorem graphAddIntersections_nodes (sh : ShapelyModel)
    (polylines : List (List (ℝ × ℝ))) (g : Graph (ℝ × ℝ) ℝ) (v : ℝ × ℝ)
    (h : v ∈ (graphAddIntersections sh polylines g).nodes) :
    v ∈ g.nodes ∨ ∃ i j, i < j ∧ j < polylines.length ∧
      v ∈ sh.intersectionPts (polylines.getD i []) (polylines.getD j []) := by
  unfold graphAddIntersections at h
  suffices hgen : ∀ (ps : List (ℕ × ℕ)) (g0 : Graph (ℝ × ℝ) ℝ),
      v ∈ (ps.foldl (fun acc ij =>
        (sh.intersectionPts (polylines.getD ij.1 []) (polylines.getD ij.2 [])).foldl
          Graph.addNode acc) g0).nodes →
      v ∈ g0.nodes ∨ ∃ ij ∈ ps,
        v ∈ sh.intersectionPts (polylines.getD ij.1 []) (polylines.getD ij.2 []) by
    rcases hgen (pairsLT polylines.length) g h with h' | ⟨ij, hij, hv⟩
    · exact Or.inl h'
    · obtain ⟨h1, h2⟩ := pairsLT_mem hij
      exact Or.inr ⟨ij.1, ij.2, h1, h2, hv⟩
  intro ps
  induction ps with
  | nil => intro g0 h0; exact Or.inl h0
  | cons q rest ih =>
    intro g0 h0
    rcases ih _ h0 with h' | ⟨ij, hij, hv⟩
    · rcases foldl_addNode_nodes _ _ _ h' with h2 | h2
      · exact Or.inl h2
      · exact Or.inr ⟨q, by simp, h2⟩
    · exact Or.inr ⟨ij, by simp [hij], hv⟩

theorem graphAddIntersections_distances (sh : ShapelyModel)
    (polylines : List (List (ℝ × ℝ))) :
    ∀ g : Graph (ℝ × ℝ) ℝ,
      (graphAddIntersections sh polylines g).distances = g.distances := by
  unfold graphAddIntersections
  suffices hgen : ∀ (ps : List (ℕ × ℕ)) (g0 : Graph (ℝ × ℝ) ℝ),
      (ps.foldl (fun acc ij =>
        (sh.intersectionPts (polylines.getD ij.1 []) (polylines.getD ij.2 [])).foldl
          Graph.addNode acc) g0).distances = g0.distances by
    intro g
    exact hgen _ g
  intro ps
  induction ps with
  | nil => intro g0; rfl
  | cons q rest ih =>
    intro g0
    rw [List.foldl_cons, ih, foldl_addNode_distances]

theorem addEdge_distances_inv {V W : Type} [DecidableEq V] (g : Graph V W)
    (u v : V) (w : W) (a b : V) (x : W)
    (h : (g.addEdge u v w).distances (a, b) = some x) :
    (a = u ∧ b = v ∧ x = w) ∨ g.distances (a, b) = some x := by
  simp only [Graph.addEdge, Function.update_apply] at h
  by_cases hp : (a, b) = (u, v)
  · rw [if_pos hp] at h
    exact Or.inl ⟨congrArg Prod.fst hp, congrArg Prod.snd hp, (Option.some.inj h).symm⟩
  · rw [if_neg hp] at h
    exact Or.inr h

theorem addEdge_nodes {V W : Type} [DecidableEq V] (g : Graph V W)
    (u v : V) (w : W) : (g.addEdge u v w).nodes = g.nodes := rfl

theorem edges_inner_sound (sh : ShapelyModel) (pl : List (ℝ × ℝ))
    (GOOD : (ℝ × ℝ) → (ℝ × ℝ) → ℝ → Prop)
    (hnew : ∀ u v, sh.isNearPt pl u = true → sh.isNearPt pl v = true →
      sh.containsSeg pl u v = true → u ≠ v → GOOD u v (haversineKm u v))
    (node : ℝ × ℝ) (hn : sh.isNearPt pl node = true) (ots : List (ℝ × ℝ)) :
    ∀ acc : Graph (ℝ × ℝ) ℝ,
      (∀ u v w, acc.distances (u, v) = some w → GOOD u v w) →
      ∀ u v w, ((ots.foldl (fun acc3 otherNode =>
          if sh.isNearPt pl otherNode ∧ node ≠ otherNode then
            if sh.containsSeg pl node otherNode then
              acc3.addEdge node otherNode (haversineKm node otherNode)
            else acc3
          else acc3) acc).distances (u, v) = some w) → GOOD u v w := by
  induction ots with
  | nil => intro acc hacc u v w h; exact hacc u v w h
  | cons o rest ih =>
    intro acc hacc u v w h
    rw [List.foldl_cons] at h
    refine ih _ ?_ u v w h
    intro u' v' w' h'
    by_cases h1 : sh.isNearPt pl o = true ∧ node ≠ o
    · rw [if_pos h1] at h'
      by_cases h2 : sh.containsSeg pl node o = true
      · rw [if_pos h2] at h'
        rcases addEdge_distances_inv _ _ _ _ _ _ _ h' with ⟨rfl, rfl, rfl⟩ | hold
        · exact hnew _ _ hn h1.1 h2 h1.2
        · exact hacc _ _ _ hold
      · rw [if_neg h2] at h'
        exact hacc _ _ _ h'
    · rw [if_neg h1] at h'
      exact hacc _ _ _ h'

theorem edges_middle_sound (sh : ShapelyModel) (pl : List (ℝ × ℝ))
    (GOOD : (ℝ × ℝ) → (ℝ × ℝ) → ℝ → Prop)
    (hnew : ∀ u v, sh.isNearPt pl u = true → sh.isNearPt pl v = true →
      sh.containsSeg pl u v = true → u ≠ v → GOOD u v (haversineKm u v))
    (ns ots : List (ℝ × ℝ)) :
    ∀ acc : Graph (ℝ × ℝ) ℝ,
      (∀ u v w, acc.distances (u, v) = some w → GOOD u v w) →
      ∀ u v w, ((ns.foldl (fun acc2 node =>
          if sh.isNearPt pl node then
            ots.foldl (fun acc3 otherNode =>
              if sh.isNearPt pl otherNode ∧ node ≠ otherNode then
                if sh.containsSeg pl node otherNode then
                  acc3.addEdge node otherNode (haversineKm node otherNode)
                else acc3
              else acc3) acc2
          else acc2) acc).distances (u, v) = some w) → GOOD u v w := by
  induction ns with
  | nil => intro acc hacc u v w h; exact hacc u v w h
  | cons nd rest ih =>
    intro acc hacc u v w h
    rw [List.foldl_cons] at h
    refine ih _ ?_ u v w h
    by_cases h1 : sh.isNearPt pl nd = true
    · rw [if_pos h1]
      exact edges_inner_sound sh pl GOOD hnew nd h1 ots acc hacc
    · rw [if_neg h1]
      exact hacc

theorem edges_outer_sound (sh : ShapelyModel)
    (polylines : List (List (ℝ × ℝ))) (gI : Graph (ℝ × ℝ) ℝ)
    (idxs : List ℕ) (hidx : ∀ i ∈ idxs, i < polylines.length) :
    ∀ acc : Graph (ℝ × ℝ) ℝ,
      (∀ u v w, acc.distances (u, v) = some w →
        w = haversineKm u v ∧ u ≠ v ∧
        ∃ i, i < polylines.length ∧
          sh.isNearPt (polylines.getD i []) u = true ∧
          sh.isNearPt (polylines.getD i []) v = true ∧
          sh.containsSeg (polylines.getD i []) u v = true) →
      ∀ u v w, ((idxs.foldl (fun acc1 i =>
          let pl := polylines.getD i []
          gI.nodes.foldl (fun acc2 node =>
            if sh.isNearPt pl node then
              gI.nodes.foldl (fun acc3 otherNode =>
                if sh.isNearPt pl otherNode ∧ node ≠ otherNode then
                  if sh.containsSeg pl node otherNode then
                    acc3.addEdge node otherNode (haversineKm node otherNode)
                  else acc3
                else acc3) acc2
            else acc2) acc1) acc).distances (u, v) = some w) →
        w = haversineKm u v ∧ u ≠ v ∧
        ∃ i, i < polylines.length ∧
          sh.isNearPt (polylines.getD i []) u = true ∧
          sh.isNearPt (polylines.getD i []) v = true ∧
          sh.containsSeg (polylines.getD i []) u v = true := by
  induction idxs with
  | nil => intro acc hacc u v w h; exact hacc u v w h
  | cons i0 rest ih =>
    intro acc hacc u v w h
    rw [List.foldl_cons] at h
    refine ih (fun i hi => hidx i (by simp [hi])) _ ?_ u v w h
    refine edges_middle_sound sh (polylines.getD i0 []) _ ?_ gI.nodes gI.nodes acc hacc
    intro u' v' hu hv hc hne
    exact ⟨rfl, hne, i0, hidx i0 (by simp), hu, hv, hc⟩

theorem edges_inner_nodes (sh : ShapelyModel) (pl : List (ℝ × ℝ))
    (node : ℝ × ℝ) (ots : List (ℝ × ℝ)) :
    ∀ acc : Graph (ℝ × ℝ) ℝ,
      ((ots.foldl (fun acc3 otherNode =>
          if sh.isNearPt pl otherNode ∧ node ≠ otherNode then
            if sh.containsSeg pl node otherNode then
              acc3.addEdge node otherNode (haversineKm node otherNode)
            else acc3
          else acc3) acc).nodes) = acc.nodes := by
  induction ots with
  | nil => intro acc; rfl
  | cons o rest ih =>
    intro acc
    rw [List.foldl_cons, ih]
    by_cases h1 : sh.isNearPt pl o = true ∧ node ≠ o
    · rw [if_pos h1]
      by_cases h2 : sh.containsSeg pl node o = true
      · rw [if_pos h2, addEdge_nodes]
      · rw [if_neg h2]
    · rw [if_neg h1]

theorem edges_middle_nodes (sh : ShapelyModel) (pl : List (ℝ × ℝ))
    (ns ots : List (ℝ × ℝ)) :
    ∀ acc : Graph (ℝ × ℝ) ℝ,
      ((ns.foldl (fun acc2 node =>
          if sh.isNearPt pl node then
            ots.foldl (fun acc3 otherNode =>
              if sh.isNearPt pl otherNode ∧ node ≠ otherNode then
                if sh.containsSeg pl node otherNode then
                  acc3.addEdge node otherNode (haversineKm node otherNode)
                else acc3
              else acc3) acc2
          else acc2) acc).nodes) = acc.nodes := by
  induction ns with
  | nil => intro acc; rfl
  | cons nd rest ih =>
    intro acc
    rw [List.foldl_cons, ih]
    by_cases h1 : sh.isNearPt pl nd = true
    · rw [if_pos h1, edges_inner_nodes]
    · rw [if_neg h1]

theorem graphAddEdges_nodes (sh : ShapelyModel)
    (polylines : List (List (ℝ × ℝ))) (g : Graph (ℝ × ℝ) ℝ) :
    (graphAddEdges sh polylines g).nodes = g.nodes := by
  unfold graphAddEdges
  suffices hgen : ∀ (idxs : List ℕ) (acc : Graph (ℝ × ℝ) ℝ),
      ((idxs.foldl (fun acc1 i =>
        let pl := polylines.getD i []
        g.nodes.foldl (fun acc2 node =>
          if sh.isNearPt pl node then
            g.nodes.foldl (fun acc3 otherNode =>
              if sh.isNearPt pl otherNode ∧ node ≠ otherNode then
                if sh.containsSeg pl node otherNode then
                  acc3.addEdge node otherNode (haversineKm node otherNode)
                else acc3
              else acc3) acc2
          else acc2) acc1) acc).nodes) = acc.nodes by
    exact hgen _ g
  intro idxs
  induction idxs with
  | nil => intro acc; rfl
  | cons i0 rest ih =>
    intro acc
    rw [List.foldl_cons, ih, edges_middle_nodes]

theorem buildGraph_sound_core (sh : ShapelyModel)
    (polylines : List (List (ℝ × ℝ))) (g : Graph (ℝ × ℝ) ℝ)
    (hg : graphAddEdges sh polylines
      (graphAddIntersections sh polylines (Graph.empty _ _)) = g) :
    (∀ v ∈ g.nodes, ∃ i j, i < j ∧ j < polylines.length ∧
      v ∈ sh.intersectionPts (polylines.getD i []) (polylines.getD j [])) ∧
    (∀ u v w, g.distances (u, v) = some w →
      w = haversineKm u v ∧ u ≠ v ∧
      ∃ i, i < polylines.length ∧
        sh.isNearPt (polylines.getD i []) u = true ∧
        sh.isNearPt (polylines.getD i []) v = true ∧
        sh.containsSeg (polylines.getD i []) u v = true) := by
  subst hg
  constructor
  · intro v hv
    rw [graphAddEdges_nodes] at hv
    rcases graphAddIntersections_nodes sh polylines _ v hv with h | h
    · exact absurd h (by simp [Graph.empty])
    · exact h
  · intro u v w h
    unfold graphAddEdges at h
    refine edges_outer_sound sh polylines _ (List.range polylines.length)
      (fun i hi => List.mem_range.mp hi) _ ?_ u v w h
    intro u' v' w' h'
    rw [graphAddIntersections_distances] at h'
    exact absurd h' (by simp [Graph.empty])

/-- C1 (amended): the route-graph builder derives its nodes from pairwise
polyline intersections, not from the decoded vertices themselves — every
node of the built graph is a coordinate extracted from the intersection of
two distinct route polylines, and every recorded directed edge weight is
the haversine distance between two distinct nodes that lie within `1e-8`
of a common route polyline which contains their connecting segment. -/
theorem c1_graph_from_intersections (sh : ShapelyModel)
    (routeDefinitions : List (List Char))
    (polylines : List (List (ℝ × ℝ))) (g : Graph (ℝ × ℝ) ℝ)
    (hdec : decodedPolylines routeDefinitions = .ok polylines)
    (hg : buildGraphFromRoutes sh routeDefinitions = .ok g) :
    (∀ v ∈ g.nodes, ∃ i j, i < j ∧ j < polylines.length ∧
      v ∈ sh.intersectionPts (polylines.getD i []) (polylines.getD j [])) ∧
    (∀ u v w, g.distances (u, v) = some w →
      w = haversineKm u v ∧ u ≠ v ∧
      ∃ i, i < polylines.length ∧
        sh.isNearPt (polylines.getD i []) u = true ∧
        sh.isNearPt (polylines.getD i []) v = true ∧
        sh.containsSeg (polylines.getD i []) u v = true) := by
  refine buildGraph_sound_core sh polylines g ?_
  unfold buildGraphFromRoutes at hg
  rw [hdec] at hg
  exact Except.ok.inj hg

/-- Witness for C1 (amended) at the empty definition list, whose graph is
the empty graph. -/
theorem c1_graph_from_intersections_witness :
    (∀ v ∈ (Graph.empty (ℝ × ℝ) ℝ).nodes, ∃ i j, i < j ∧
      j < ([] : List (List (ℝ × ℝ))).length ∧
      v ∈ shEmpty.intersectionPts (([] : List (List (ℝ × ℝ))).getD i [])
        (([] : List (List (ℝ × ℝ))).getD j [])) ∧
    (∀ u v w, (Graph.empty (ℝ × ℝ) ℝ).distances (u, v) = some w →
      w = haversineKm u v ∧ u ≠ v ∧
      ∃ i, i < ([] : List (List (ℝ × ℝ))).length ∧
        shEmpty.isNearPt (([] : List (List (ℝ × ℝ))).getD i []) u = true ∧
        shEmpty.isNearPt (([] : List (List (ℝ × ℝ))).getD i []) v = true ∧
        shEmpty.containsSeg (([] : List (List (ℝ × ℝ))).getD i []) u v = true) :=
  c1_graph_from_intersections shEmpty [] [] (Graph.empty _ _) rfl rfl

/-- C1 counterexample to the original claim: a single route whose polyline
`"AAAA"` decodes to two vertices yields a graph with no nodes at all (with no
other polyline to intersect, the builder creates nothing), so the decoded
vertices of a polyline are not added as graph nodes. -/
theorem c1_counterexample :
    (decodePolyline6 (A := ℝ) ['A', 'A', 'A', 'A']).map List.length = .ok 2 ∧
    (buildGraphFromRoutes shEmpty [['A', 'A', 'A', 'A']]).map Graph.nodes =
      .ok [] := by
  have hA : ('A'.toNat : ℤ) = 65 := by decide
  have h2' : Int.toNat 2 = 2 := by decide
  have h3 : (2 : ℕ) >>> 1 = 1 := by decide
  constructor
  · norm_num [decodePolyline6, decodePolyline6Aux, decodeValueStep, zigzagDecode,
      hA, h2', h3, Except.map]
  · norm_num [buildGraphFromRoutes, decodedPolylines, decodePolyline6,
      decodePolyline6Aux, decodeValueStep, zigzagDecode, hA, h2', h3,
      graphAddIntersections, graphAddEdges, pairsLT, Graph.empty, Except.map,
      shEmpty, List.range_succ, List.flatMap_cons, List.flatMap_nil]
